import Mathlib

/-!
Shallow embedding of the run-characterization pipeline of the GW_turbulence
repository (src/run.py, src/reading.py, src/cosmoGW.py), together with
theorems checking the natural-language specification against it.

Numeric values are modelled by exact rationals `ℚ` (floating point rounding is
not modelled).  Python dictionaries with string keys are modelled extensionally
as functions `String → Option Val`; `dict.update` is function update.  NumPy
arrays are Lean lists (1D) and lists of lists (2D, row major).
-/

namespace GWTurb

/-- A value stored in one of the `spectra`/`ts` dictionaries of a run:
a scalar (such as `k0`), a 1D array (time grids, time series, reductions)
or a 2D array (spectra, indexed time × wavenumber). -/
inductive Val where
  | num (q : ℚ)
  | arr (a : List ℚ)
  | mat (m : List (List ℚ))
deriving DecidableEq

/-- A Python dict with string keys, modelled extensionally. -/
abbrev Dict := String → Option Val

/-- `d.update({key: v})`: overwrite or insert. -/
def dupd (d : Dict) (key : String) (v : Val) : Dict :=
  fun k => if k = key then some v else d k

/-- `d.get(key)` followed by use as a 1D array; `[]` stands for the values on
which the Python code would raise (missing key or wrong shape). -/
def getArr (d : Dict) (key : String) : List ℚ :=
  match d key with
  | some (.arr a) => a
  | _ => []

/-- `d.get(key)` used as a 2D array. -/
def getMat (d : Dict) (key : String) : List (List ℚ) :=
  match d key with
  | some (.mat m) => m
  | _ => []

theorem dupd_same (d : Dict) (key : String) (v : Val) : dupd d key v key = some v := by
  simp [dupd]

theorem dupd_ne (d : Dict) (key k : String) (v : Val) (h : k ≠ key) :
    dupd d key v k = d k := by
  simp [dupd, h]

theorem dupd_noop (d : Dict) (key : String) (v : Val) (h : d key = some v) :
    dupd d key v = d := by
  funext k
  by_cases hk : k = key
  · subst hk; simp [dupd, h]
  · simp [dupd, hk]

/-! NumPy-style array operations. -/

/-- Elementwise map over a 2D array. -/
def map2D (f : ℚ → ℚ) (A : List (List ℚ)) : List (List ℚ) :=
  A.map (fun row => row.map f)

/-- Elementwise binary operation over two 2D arrays (as produced by NumPy
broadcasting of same-shape arrays). -/
def zip2D (f : ℚ → ℚ → ℚ) (A B : List (List ℚ)) : List (List ℚ) :=
  List.zipWith (List.zipWith f) A B

/-- `kij` from `np.meshgrid(t, k, indexing='ij')`: `kij[i][j] = k[j]`. -/
def meshK (t k : List ℚ) : List (List ℚ) :=
  t.map (fun _ => k)

/-- `tij` from `np.meshgrid(t, k, indexing='ij')`: `tij[i][j] = t[i]`. -/
def meshT (t k : List ℚ) : List (List ℚ) :=
  t.map (fun ti => k.map (fun _ => ti))

/-- Auxiliary loop for `np.argmax`. -/
def argmaxAux (best cur : ℕ) (bv : ℚ) : List ℚ → ℕ
  | [] => best
  | y :: ys => if y > bv then argmaxAux (cur + 1) (cur + 1) y ys else argmaxAux best (cur + 1) bv ys

/-- `np.argmax`: index of the first occurrence of the maximum (0 on the empty
array, where NumPy raises). -/
def argmaxIdx : List ℚ → ℕ
  | [] => 0
  | x :: xs => argmaxAux 0 0 x xs

/-- `np.trapz(y, x)`: trapezoidal quadrature of samples `y` over grid `x`. -/
def trapz : List ℚ → List ℚ → ℚ
  | y0 :: y1 :: ys, x0 :: x1 :: xs => (x1 - x0) * (y0 + y1) / 2 + trapz (y1 :: ys) (x1 :: xs)
  | _, _ => 0

/-- `np.interp(x, xp, fp)` at a single query point, for an increasing grid
`xp`: clamped piecewise-linear interpolation. -/
def interp1 (x : ℚ) : List ℚ → List ℚ → ℚ
  | xp0 :: xp1 :: xps, fp0 :: fp1 :: fps =>
      if x ≤ xp0 then fp0
      else if x ≤ xp1 then fp0 + (fp1 - fp0) * (x - xp0) / (xp1 - xp0)
      else interp1 x (xp1 :: xps) (fp1 :: fps)
  | [xp0], [fp0] =>
      let _ := xp0
      fp0
  | _, _ => 0

/-- Modelled from the spec: `spectra.compute_kpeak` lives in `spectra.py`,
which is not included under `src/`.  Per the spec (§4.3) it returns the
wavenumber at which the spectral density is maximal together with that maximal
density; the caller already strips the degenerate zero-wavenumber bin from
both `k` and `E`. -/
def compute_kpeak (k E : List ℚ) : ℚ × ℚ :=
  (k.getD (argmaxIdx E) 0, E.getD (argmaxIdx E) 0)

/-! The run data model (class `run` of src/run.py). -/

/-- The classifier scalar attributes set by `run.characterize_run`. -/
structure Scalars where
  turb : String
  Ommax : ℚ
  OmMmax : ℚ
  OmKmax : ℚ
  tmaxM : ℚ
  tmaxK : ℚ
  kfM : ℚ
  kfK : ℚ
  vA : ℚ
  vK : ℚ
  teM : ℚ
  teK : ℚ
  tini : ℚ
  kf : ℚ
  v : ℚ
  te : ℚ
deriving DecidableEq

/-- The in-memory state of a `run` object: the `spectra` and `ts`
dictionaries, the `spectra_avail`/`ts_avail` lists, and the classifier
scalars (arbitrary before classification, since Python simply has the
attributes unset until then). -/
structure RunState where
  spectra : Dict
  spectra_avail : List String
  ts : Dict
  ts_avail : List String
  scal : Scalars

/-! `run.update_Pi` (src/run.py lines 397-436). -/

/-- The value computed for `Pi` in `run.update_Pi`: the code first replaces
zeros of `kij` by 1 (`kij[np.where(kij == 0)] = 1.`), computes
`Pi = sp/kij**2*tij**2/36`, and then executes `Pi[np.where(kij == 0)] = 0.`;
since `kij` was already mutated, the second mask is evaluated on the
zero-free array, which is reproduced faithfully here. -/
def PiCalcV (k t : List ℚ) (sp : List (List ℚ)) : List (List ℚ) :=
  let kij2 := map2D (fun x => if x = 0 then 1 else x) (meshK t k)
  let Pi0 := zip2D (fun a b => a * b ^ 2 / 36) (zip2D (fun x kv => x / kv ^ 2) sp kij2) (meshT t k)
  zip2D (fun kv pv => if kv = 0 then 0 else pv) kij2 Pi0

/-- The value computed for `helPi` in `run.update_Pi`: `helStr / kij**2`
(no time factor), with the same mutated-mask behaviour as `Pi`. -/
def helPiCalcV (k t : List ℚ) (sp : List (List ℚ)) : List (List ℚ) :=
  let kij2 := map2D (fun x => if x = 0 then 1 else x) (meshK t k)
  let helPi0 := zip2D (fun x kv => x / kv ^ 2) sp kij2
  zip2D (fun kv pv => if kv = 0 then 0 else pv) kij2 helPi0

/-- `run.update_Pi`: derives `Pi` from `Str` (and `helPi` from `helStr`,
nested inside the `Str` branch, as in the source). -/
def update_Pi (s : RunState) : RunState :=
  if "Str" ∈ s.spectra_avail then
    let k := getArr s.spectra "k"
    let t := getArr s.spectra "t_Str"
    let sp := getMat s.spectra "Str"
    let sp1 := dupd (dupd s.spectra "Pi" (.mat (PiCalcV k t sp))) "t_Pi" (.arr t)
    let av1 := if "Pi" ∈ s.spectra_avail then s.spectra_avail else s.spectra_avail ++ ["Pi"]
    if "helStr" ∈ av1 then
      let t2 := getArr sp1 "t_helStr"
      let sphel := getMat sp1 "helStr"
      let sp2 := dupd (dupd sp1 "helPi" (.mat (helPiCalcV k t2 sphel))) "t_helPi" (.arr t2)
      let av2 := if "helPi" ∈ av1 then av1 else av1 ++ ["helPi"]
      { s with spectra := sp2, spectra_avail := av2 }
    else { s with spectra := sp1, spectra_avail := av1 }
  else s

/-! `run.update_EGW` (src/run.py lines 438-527).  The non-helical and the
helical halves of the function are textually identical up to the spectrum
names, so they are modelled by one parameterized function applied twice. -/

/-- The final value of the in-place accumulated `EGW` array of one half of
`update_EGW`: `sp1/6`, plus `sp2/tij**2/6` when `GWh` is available, minus
`sp3/tij/3` when `GWm` is available. -/
def EGW2CalcV (k t : List ℚ) (sp1 : List (List ℚ))
    (sp2 sp3 : Option (List (List ℚ))) : List (List ℚ) :=
  let tij := meshT t k
  let EGW0 := map2D (fun x => x / 6) sp1
  let EGW1 := match sp2 with
    | some m2 => zip2D (fun a b => a + b) EGW0 (zip2D (fun x tv => x / tv ^ 2 / 6) m2 tij)
    | none => EGW0
  match sp3 with
  | some m3 => zip2D (fun a b => a - b) EGW1 (zip2D (fun x tv => x / tv / 3) m3 tij)
  | none => EGW1

/-- The value `OmGW = kij * (sp1/6)`, computed before the accumulation. -/
def OmGWCalcV (k t : List ℚ) (sp1 : List (List ℚ)) : List (List ℚ) :=
  zip2D (fun a b => a * b) (meshK t k) (map2D (fun x => x / 6) sp1)

/-- One half of `run.update_EGW`.  `EGW = sp1/6` is stored under `nEGW` and
then mutated in place by `EGW += sp2/tij**2/6` and `EGW -= sp3/tij/3`
(NumPy in-place operations on the very array object held by the dict), so the
value finally held under `nEGW` — and under `nEGWtot`, which receives the same
object — is the accumulated `EGW2`.  `OmGW = kij*EGW` is a fresh array
computed before the accumulation.  The `nGWh`/`nGWm` inputs are read from
`s.spectra`; the preceding updates only touch the `nEGW`/`nOmGW` keys, so the
values are those the source reads from `self.spectra`. -/
def update_EGW_half (k : List ℚ) (nGWs nGWh nGWm nEGW nOmGW nEGWtot nOmGWtot : String)
    (s : RunState) : RunState :=
  if nGWs ∈ s.spectra_avail then
    let t := getArr s.spectra ("t_" ++ nGWs)
    let OmGW := OmGWCalcV k t (getMat s.spectra nGWs)
    let av1 := if nEGW ∈ s.spectra_avail then s.spectra_avail else s.spectra_avail ++ [nEGW]
    let av2 := if nOmGW ∈ av1 then av1 else av1 ++ [nOmGW]
    let EGW2 := EGW2CalcV k t (getMat s.spectra nGWs)
        (if nGWh ∈ av2 then some (getMat s.spectra nGWh) else none)
        (if nGWm ∈ av2 then some (getMat s.spectra nGWm) else none)
    let d1 := dupd (dupd (dupd (dupd s.spectra nEGW (.mat EGW2)) nOmGW (.mat OmGW))
        ("t_" ++ nEGW) (.arr t)) ("t_" ++ nOmGW) (.arr t)
    if nGWh ∈ av2 ∨ nGWm ∈ av2 then
      let d2 := dupd (dupd (dupd (dupd d1 nEGWtot (.mat EGW2))
          nOmGWtot (.mat (zip2D (fun a b => a * b) (meshK t k) EGW2)))
          ("t_" ++ nEGWtot) (.arr t)) ("t_" ++ nOmGWtot) (.arr t)
      let av3 := if nEGWtot ∈ av2 then av2 else av2 ++ [nEGWtot]
      let av4 := if nOmGWtot ∈ av3 then av3 else av3 ++ [nOmGWtot]
      { s with spectra := d2, spectra_avail := av4 }
    else { s with spectra := d1, spectra_avail := av2 }
  else s

/-- `run.update_EGW`: the wavenumber grid is read once, then the plain and
the helical halves run in sequence. -/
def update_EGW (s : RunState) : RunState :=
  let k := getArr s.spectra "k"
  let s1 := update_EGW_half k "GWs" "GWh" "GWm" "EGW" "OmGW" "EGW_tot" "OmGW_tot" s
  update_EGW_half k "helGWs" "helGWh" "helGWm" "helEGW" "helOmGW" "helEGW_tot" "helOmGW_tot" s1

/-! `run.compute_mean_max_spectra` (src/run.py lines 255-283). -/

/-- The `kpeak` array of one spectrum: `sp.compute_kpeak(k, E[i,:])[0]` for
each time index. -/
def kpeakArr (k t : List ℚ) (E : List (List ℚ)) : List ℚ :=
  (List.range t.length).map (fun i => (compute_kpeak k (E.getD i [])).1)

/-- The `Emax` array of one spectrum: `sp.compute_kpeak(k, E[i,:])[1]`. -/
def maxArr (k t : List ℚ) (E : List (List ℚ)) : List ℚ :=
  (List.range t.length).map (fun i => (compute_kpeak k (E.getD i [])).2)

/-- The `Emean` array of one spectrum: `np.trapz(E[i,:], k)`. -/
def meanArr (k t : List ℚ) (E : List (List ℚ)) : List ℚ :=
  (List.range t.length).map (fun i => trapz (E.getD i []) k)

/-- The body of the `for m in self.spectra_avail` loop of
`compute_mean_max_spectra`: reads `t_m` and `m` (dropping the zero-wavenumber
column, `E = self.spectra.get(m)[:,1:]`) and stores the three reductions. -/
def meanStep (k : List ℚ) (d : Dict) (m : String) : Dict :=
  let t := getArr d ("t_" ++ m)
  let E := (getMat d m).map List.tail
  dupd (dupd (dupd d (m ++ "_kpeak") (.arr (kpeakArr k t E)))
      (m ++ "_max") (.arr (maxArr k t E)))
      (m ++ "_mean") (.arr (meanArr k t E))

/-- `run.compute_mean_max_spectra`: `k = self.spectra.get('k')[1:]` is read
once, then the loop updates the dictionary for every available spectrum. -/
def compute_mean_max_spectra (s : RunState) : RunState :=
  { s with spectra := s.spectra_avail.foldl (meanStep ((getArr s.spectra "k").tail)) s.spectra }

/-! `run.check_max_spectra_ts` (src/run.py lines 285-326). -/

/-- `run.check_max_spectra_ts`: returns `(max, tmax, kf)`.  Note that in the
`else` branch the index into the interpolated array (which lives on the time
series grid `self.ts.get('t')`) is `indmax = np.argmax(mean)`, the argmax of
the spectral mean — reproduced faithfully. -/
def check_max_spectra_ts (s : RunState) (E EE : String) : ℚ × ℚ × ℚ :=
  let t := getArr s.ts "t"
  let m1 : ℚ × ℚ :=
    if EE ∈ s.ts_avail then
      let EEm := getArr s.ts EE
      let indmax := argmaxIdx EEm
      (EEm.getD indmax 0, t.getD indmax 0)
    else (0, t.getD 0 0)
  if E ∈ s.spectra_avail then
    let mean := getArr s.spectra (E ++ "_mean")
    let tE := getArr s.spectra ("t_" ++ E)
    let indmax := argmaxIdx mean
    let kpeak := getArr s.spectra (E ++ "_kpeak")
    if mean.getD indmax 0 > m1.1 then
      (mean.getD indmax 0, tE.getD indmax 0, kpeak.getD indmax 0)
    else (m1.1, m1.2, ((getArr s.ts "t").map (fun x => interp1 x tE kpeak)).getD indmax 0)
  else (m1.1, m1.2, 0)

/-! `run.compute_rho` (src/run.py lines 342-361). -/

/-- The `rho` value of `run.compute_rho`: `rho = EEK**0` (elementwise 1,
NumPy evaluates `0**0 = 1`), then `rho[urms != 0] = 2*EEK/urms**2` at those
indices. -/
def rhoCalcV (urms EEK : List ℚ) : List ℚ :=
  List.zipWith (fun u e => if u ≠ 0 then 2 * e / u ^ 2 else 1) urms EEK

/-- `run.compute_rho`. -/
def compute_rho (s : RunState) : RunState :=
  if "urms" ∈ s.ts_avail ∧ "EEK" ∈ s.ts_avail then
    { s with ts := dupd s.ts "rho" (.arr (rhoCalcV (getArr s.ts "urms") (getArr s.ts "EEK"))),
             ts_avail := s.ts_avail ++ ["rho"] }
  else s

/-! `run.compute_total_max_energies` (src/run.py lines 363-395). -/

/-- `run.compute_total_max_energies`: derives `EEtot = EEK + EEM`, and
`EEKmax`/`EEMmax`/`EEtotmax` from the peak-field series `umax`/`bmax`.
In the nested branch the Python local `EEKmax` (set in the `umax` branch,
which is guaranteed to have run since `ts_avail` only gained derived literal
names) is `umax**2/2`. -/
def compute_total_max_energies (s : RunState) : RunState :=
  let s1 :=
    if "EEM" ∈ s.ts_avail ∧ "EEK" ∈ s.ts_avail then
      let EEK := getArr s.ts "EEK"
      let EEM := getArr s.ts "EEM"
      { s with ts := dupd s.ts "EEtot" (.arr (List.zipWith (fun a b => a + b) EEK EEM)),
               ts_avail := s.ts_avail ++ ["EEtot"] }
    else s
  let s2 :=
    if "umax" ∈ s1.ts_avail then
      { s1 with ts := dupd s1.ts "EEKmax" (.arr ((getArr s1.ts "umax").map (fun x => x ^ 2 / 2))),
                ts_avail := s1.ts_avail ++ ["EEKmax"] }
    else s1
  if "bmax" ∈ s2.ts_avail then
    let EEMmax := (getArr s2.ts "bmax").map (fun x => x ^ 2 / 2)
    let s3 := { s2 with ts := dupd s2.ts "EEMmax" (.arr EEMmax),
                        ts_avail := s2.ts_avail ++ ["EEMmax"] }
    if "umax" ∈ s3.ts_avail then
      let EEKmax := (getArr s1.ts "umax").map (fun x => x ^ 2 / 2)
      { s3 with ts := dupd s3.ts "EEtotmax" (.arr (List.zipWith (fun a b => a + b) EEMmax EEKmax)),
                ts_avail := s3.ts_avail ++ ["EEtotmax"] }
    else s3
  else s2

/-! `run.characterize_run` (src/run.py lines 156-253). -/

/-- `run.characterize_run`.  `np.sqrt` is not exactly representable on `ℚ`,
so it is abstracted as the function parameter `sq` (every statement proved
below holds for an arbitrary `sq`, in particular for real square root).
The printed warnings of the source have no effect on the state and are not
modelled. -/
def characterize_run (sq : ℚ → ℚ) (s0 : RunState) : RunState :=
  let s1 := update_Pi s0
  let s2 := update_EGW s1
  let s3 := compute_mean_max_spectra s2
  let mM := check_max_spectra_ts s3 "mag" "EEM"
  let mK := check_max_spectra_ts s3 "kin" "EEK"
  let vA := sq (3 / 2 * mM.1)
  let vK := sq (2 * mK.1)
  let teM := if mM.2.2 ≠ 0 ∧ vA ≠ 0 then 1 / mM.2.2 / vA else 10 ^ 10
  let teK := if mK.2.2 ≠ 0 ∧ vK ≠ 0 then 1 / mK.2.2 / vK else 10 ^ 10
  let scal0 : Scalars :=
    if mM.1 > mK.1 then
      { turb := "m", Ommax := max mM.1 mK.1, OmMmax := mM.1, OmKmax := mK.1,
        tmaxM := mM.2.1, tmaxK := mK.2.1, kfM := mM.2.2, kfK := mK.2.2,
        vA := vA, vK := vK, teM := teM, teK := teK,
        tini := mM.2.1, kf := mM.2.2, v := vA, te := teM }
    else
      { turb := "k", Ommax := max mM.1 mK.1, OmMmax := mM.1, OmKmax := mK.1,
        tmaxM := mM.2.1, tmaxK := mK.2.1, kfM := mM.2.2, kfK := mK.2.2,
        vA := vA, vK := vK, teM := teM, teK := teK,
        tini := mK.2.1, kf := mK.2.2, v := vK, te := teK }
  let s4 : RunState := { s3 with scal := scal0 }
  compute_total_max_energies (compute_rho s4)

/-! Text ingestion (src/reading.py).  Files are modelled as the list of their
lines (without trailing newline characters); `fp.readline()` returning the
empty string at end of file is modelled by appending a `""` sentinel where the
source processes that final read. -/

/-- Characterwise strip of leading and trailing whitespace
(Python `str.strip()` / `String.trim`). -/
def trimChars (cs : List Char) : List Char :=
  ((cs.dropWhile Char.isWhitespace).reverse.dropWhile Char.isWhitespace).reverse

/-- Python `str.strip()`. -/
def pyStrip (s : String) : String :=
  String.mk (trimChars s.data)

/-- Split a character list at every separator character, keeping the (possibly
empty) chunks between separators. -/
def splitChars (p : Char → Bool) : List Char → List (List Char)
  | [] => [[]]
  | c :: cs =>
      if p c then [] :: splitChars p cs
      else
        match splitChars p cs with
        | [] => [[c]]
        | w :: ws => (c :: w) :: ws

/-- Python `str.split()` with no argument: split on whitespace runs. -/
def pySplit (s : String) : List String :=
  ((splitChars Char.isWhitespace s.data).map String.mk).filter (fun x => x ≠ "")

/-- Python `str.split(c)` for a single-character separator. -/
def pySplitOnChar (c : Char) (s : String) : List String :=
  (splitChars (fun x => x == c) s.data).map String.mk

/-- Does `sep` occur at the head of `cs`? -/
def startsWithChars : List Char → List Char → Bool
  | [], _ => true
  | _ :: _, [] => false
  | a :: as_, b :: bs => a == b && startsWithChars as_ bs

/-- Python `sub in s` (substring containment) on character lists. -/
def containsSeq (sep : List Char) : List Char → Bool
  | [] => startsWithChars sep []
  | c :: cs => startsWithChars sep (c :: cs) || containsSeq sep cs

/-- Numeric value of a run of decimal digit characters. -/
def digitsVal (cs : List Char) : ℕ :=
  cs.foldl (fun n c => 10 * n + (c.toNat - '0'.toNat)) 0

/-- Signed exponent part of a float token (after the `E`). -/
def parseExp : List Char → ℤ
  | '-' :: r => -(digitsVal r : ℤ)
  | '+' :: r => (digitsVal r : ℤ)
  | r => (digitsVal r : ℤ)

/-- Unsigned part of Python `float(token)` over exact rationals:
`ip.fp E exp`. -/
def parseFloatPos (cs : List Char) : ℚ :=
  let mant := cs.takeWhile (fun c => c != 'E' && c != 'e')
  let rest := cs.dropWhile (fun c => c != 'E' && c != 'e')
  let expv : ℤ := match rest with
    | _ :: r => parseExp r
    | [] => 0
  let ip := mant.takeWhile (fun c => c != '.')
  let fp := (mant.dropWhile (fun c => c != '.')).drop 1
  ((digitsVal ip : ℚ) + (digitsVal fp : ℚ) / 10 ^ fp.length) * (10 : ℚ) ^ expv

/-- Python `float(token)` over exact rationals (tokens Python would reject
get an unspecified junk value; the theorems below only apply it to valid
numerals). -/
def parseFloat (s : String) : ℚ :=
  match s.data with
  | '-' :: r => -(parseFloatPos r)
  | '+' :: r => parseFloatPos r
  | r => parseFloatPos r

/-- `NameError` raised by the `os.chdir(dir0)` directory-restore step of
`read_spectrum`/`read_k`/`read_L`: the name `dir0` is not defined anywhere in
module scope of src/reading.py. -/
inductive PyErr where
  | nameErrorDir0
deriving DecidableEq

/-- The `while line:` loop of `read_spectrum` (opt=0): a line whose stripped
length equals the stripped length of the first line starts a new time block
(its text joins `times`); every other line is whitespace-split and appended
to the current block.  Returns the remaining times (as raw strings) and the
list of closed blocks (the final `sp.append(specs)` included). -/
def spLoop (len_st : ℕ) : List (List String) → List String → List String × List (List (List String))
  | specs, [] => ([], [specs])
  | specs, line :: rest =>
      let content := pyStrip line
      if content.length = len_st then
        let r := spLoop len_st [] rest
        (content :: r.1, specs :: r.2)
      else
        spLoop len_st (specs ++ [pySplit content]) rest

/-- The reshape of one time block of `read_spectrum`: `np.array` of a list of
equal-length rows is 2D with shape `(a, b)`; of a ragged list it is a 1D
object array, in which case the source uses `a = shape[0] - 1` (dropping the
final row, which is the empty list produced by the end-of-file read) and `b`
the length of the first row.  Out-of-range accesses (where NumPy raises) give
the default 0. -/
def reshapeBlock (block : List (List String)) : List ℚ :=
  let b := (block.headD []).length
  let a := if block.all (fun r => r.length == b) && !block.isEmpty then block.length
           else block.length - 1
  ((List.range a).map (fun i => (List.range b).map
      (fun j => parseFloat ((block.getD i []).getD j "")))).flatten

/-- The pure reading part of `read_spectrum` (opt=0, the mode used by
`read_spectra_runs`): the first line is the first times entry and fixes the
header width; `min(nt, nt2)` blocks are reshaped.  No sorting of the times
takes place anywhere. -/
def read_spectrum_core (lines : List String) : List ℚ × List (List ℚ) :=
  match lines with
  | [] => ([], [])
  | l0 :: rest =>
      let c0 := pyStrip l0
      let r := spLoop c0.length [] (rest ++ [""])
      let times := (c0 :: r.1).map parseFloat
      let sps := (List.range (min r.2.length times.length)).map
          (fun l => reshapeBlock (r.2.getD l []))
      (times, sps)

/-- `read_spectrum` of src/reading.py: after the read, the source executes
`if dir_data != '.': os.chdir(dir0)`; `dir0` is an undefined name, so a
`NameError` is raised and nothing is returned unless `dir_data == '.'`. -/
def read_spectrum (lines : List String) (dir_data : String) :
    Except PyErr (List ℚ × List (List ℚ)) :=
  let res := read_spectrum_core lines
  if dir_data = "." then .ok res else .error .nameErrorDir0

/-- The time values of the header-width rows of a spectrum file, in file
order: the first line, then every later line (including the end-of-file read)
whose stripped length equals that of the first line. -/
def headerTimes (lines : List String) : List ℚ :=
  match lines with
  | [] => []
  | l0 :: rest =>
      parseFloat (pyStrip l0) ::
        ((rest ++ [""]).filter
            (fun l => (pyStrip l).length == (pyStrip l0).length)).map
          (fun l => parseFloat (pyStrip l))

/-- `read_k` of src/reading.py: `np.loadtxt('power_krms.dat')` is modelled by
its resulting rectangular table `ak`; the double loop flattens it row-major.
The directory-restore step raises `NameError` for `dir_data != '.'`. -/
def read_k (ak : List (List ℚ)) (dir_data : String) : Except PyErr (List ℚ) :=
  let b := (ak.headD []).length
  let k := ((List.range ak.length).map (fun i => (List.range b).map
      (fun j => (ak.getD i []).getD j 0))).flatten
  if dir_data = "." then .ok k else .error .nameErrorDir0

/-- `read_L` of src/reading.py: keep the stripped lines containing "LXYZ",
split the first of them on whitespace, take token 1, split it on `*` and
parse factor 1 as a float.  The directory-restore step raises `NameError`
for `dir_data != '.'`. -/
def read_L (lines : List String) (dir_data : String) : Except PyErr ℚ :=
  let content := lines.map pyStrip
  let matching := content.filter (fun x => containsSeq "LXYZ".data x.data)
  let LXYZ := (pySplit (matching.headD "")).getD 1 ""
  let L := parseFloat ((pySplitOnChar '*' LXYZ).getD 1 "")
  if dir_data = "." then .ok L else .error .nameErrorDir0

/-! The fallback record parser of `read_ts` (opt=1, src/reading.py lines
140-174). -/

/-- Index of the first occurrence of a character (length of the list if
absent). -/
def charIdxOf (c : Char) : List Char → ℕ
  | [] => 0
  | x :: xs => if x = c then 0 else charIdxOf c xs + 1

/-- Python `s[0]` on a (nonempty) string; the default on the empty string,
where Python would raise `IndexError`, is a blank. -/
def pyHead (s : String) : Char :=
  s.data.headD ' '

/-- Python `'-' in s`. -/
def hasDash (s : String) : Bool :=
  s.data.contains '-' 

/-- The bare-exponent repair of one (sign-stripped) token in `read_ts`:
if the token contains `-` at index `i` with `ind = i - 1`, and the character
at `ind` is not `E`, insert `E` before the `-`.  When the `-` is at index 0,
Python's `s0[ind]` with `ind = -1` inspects the last character (negative
indexing), and the slices `s0[:0] + 'E' + s0[0:]` still insert at position 0;
both behaviours are reproduced. -/
def fixExpToken (s0 : String) : String :=
  if hasDash s0 then
    let i := charIdxOf '-' s0.data
    let prevC := if i = 0 then s0.data.getLastD ' ' else s0.data.getD (i - 1) ' '
    if prevC ≠ 'E' then String.mk (s0.data.take i ++ 'E' :: s0.data.drop i) else s0
  else s0

/-- The token loop of one record in `read_ts` (opt=1): the `neg` flag is set
when a token starts with `-` (the leading `-` is stripped before the exponent
repair) and is never reset within the record; after the repair, `'-' + s2` is
prepended whenever the flag is set. -/
def fixTokensAux : Bool → List String → List String
  | _, [] => []
  | neg, s :: rest =>
      let neg2 := if pyHead s = '-' then true else neg
      let s0 := if pyHead s = '-' then String.mk s.data.tail else s
      let s2 := fixExpToken s0
      let s3 := if neg2 then "-" ++ s2 else s2
      s3 :: fixTokensAux neg2 rest

/-- One parsed record of `read_ts` (opt=1): the per-record loop starts with
`neg = False`. -/
def read_ts_fix_record (r : List String) : List String :=
  fixTokensAux false r

/-- Tokens of one `time_series.dat` line as cleaned by `read_ts`:
`line.split(' ')` with empty entries removed (the `'\n'` entries and
embedded newlines of the source do not arise when a file is given as a list
of newline-free lines). -/
def pyTsTokens (line : String) : List String :=
  (pySplitOnChar ' ' line).filter (fun x => x ≠ "")

/-- The numeric table `af` built by `read_ts` in fallback mode (opt=1): the
first line of the file is read before the loop and never stored; the first
loop iteration stores its row unconditionally, later iterations only when the
cleaned token list is nonempty.  (For the empty file, where the source would
hit an unbound `af`, the model returns `[]`.) -/
def read_ts_af (lines : List String) : List (List ℚ) :=
  match lines.drop 1 ++ [""] with
  | [] => []
  | r0 :: rest =>
      let row0 := read_ts_fix_record (pyTsTokens r0)
      let others := rest.filterMap (fun l =>
        let tk := pyTsTokens l
        if tk = [] then none else some (read_ts_fix_record tk))
      (row0 :: others).map (fun r => r.map parseFloat)

/-! `hc_Sf` of src/cosmoGW.py, over exact reals (the astropy unit conversions
carry no numeric content once frequencies are in Hz). -/

/-- `hc_Sf(f, Sf, d)`: for `d = 1` the strain
`hc = sqrt(12 pi^2) * sqrt(Sf * f^3)`; for `d = -1` the source computes
`Sf**2/12/np.pi**2/f**(3/2)` (the argument `Sf` then holds a strain). -/
noncomputable def hc_Sf (f Sf : ℝ) (d : ℤ) : ℝ :=
  let hc := Real.sqrt (12 * Real.pi ^ 2) * Real.sqrt (Sf * f ^ 3)
  if d = -1 then Sf ^ 2 / 12 / Real.pi ^ 2 / f ^ ((3 : ℝ) / 2) else hc


/-! Concrete run fixtures used by evaluation theorems and witnesses. -/

/-- Placeholder classifier scalars of a freshly ingested run (Python leaves
the attributes unset until classification; their initial value is never
read). -/
def scalZero : Scalars := ⟨"", 0, 0, 0, 0, 0, 0, 0, 0, 0, 0, 0, 0, 0, 0, 0⟩

/-- A run with `GWs` and `GWh` spectra on the grid `k = [1, 2]`, `t = [1]`:
`GWs = [[6, 12]]`, `GWh = [[6, 6]]`. -/
def runEGWex : RunState :=
  { spectra := fun key =>
      if key = "k" then some (.arr [1, 2])
      else if key = "t_GWs" then some (.arr [1])
      else if key = "GWs" then some (.mat [[6, 12]])
      else if key = "GWh" then some (.mat [[6, 6]])
      else none,
    spectra_avail := ["GWs", "GWh"],
    ts := fun _ => none, ts_avail := [], scal := scalZero }

/-- A run with a `Str` spectrum on the grid `k = [0, 1]` (zero bin included),
`t = [6]`, `Str = [[36, 36]]`. -/
def runPiEx : RunState :=
  { spectra := fun key =>
      if key = "k" then some (.arr [0, 1])
      else if key = "t_Str" then some (.arr [6])
      else if key = "Str" then some (.mat [[36, 36]])
      else none,
    spectra_avail := ["Str"],
    ts := fun _ => none, ts_avail := [], scal := scalZero }

/-- A run (already reduced) whose kinetic time series `EEK = [0, 5, 1]` peaks
at index 1 while the spectral mean `kin_mean = [1, 2, 3]` peaks at index 2,
with peak-location series `kin_kpeak = [10, 20, 30]` and coinciding time
grids `[0, 1, 2]`. -/
def runCMex : RunState :=
  { spectra := fun key =>
      if key = "kin_mean" then some (.arr [1, 2, 3])
      else if key = "t_kin" then some (.arr [0, 1, 2])
      else if key = "kin_kpeak" then some (.arr [10, 20, 30])
      else none,
    spectra_avail := ["kin"],
    ts := fun key =>
      if key = "t" then some (.arr [0, 1, 2])
      else if key = "EEK" then some (.arr [0, 5, 1])
      else none,
    ts_avail := ["EEK"], scal := scalZero }

/-- C1: evaluation of `update_EGW` on `runEGWex`.  Because the accumulation
`EGW += GWh/tij**2/6` mutates the very array stored under `'EGW'`, the value
held under `'EGW'` afterwards is the accumulated total `[[2, 3]]` — equal to
`'EGW_tot'` and different from `GWs/6 = [[1, 2]]` — while `'OmGW' = [[1, 4]]`
is `k` times `GWs/6`, not `k` times the stored `'EGW'` spectrum (which would
be `[[2, 6]]`). -/
theorem update_EGW_alias_eval :
    getMat (update_EGW runEGWex).spectra "EGW" = [[2, 3]] ∧
    map2D (fun x => x / 6) (getMat runEGWex.spectra "GWs") = [[1, 2]] ∧
    getMat (update_EGW runEGWex).spectra "EGW_tot" = [[2, 3]] ∧
    getMat (update_EGW runEGWex).spectra "OmGW" = [[1, 4]] ∧
    zip2D (fun a b => a * b) (meshK (getArr runEGWex.spectra "t_GWs") (getArr runEGWex.spectra "k"))
      (getMat (update_EGW runEGWex).spectra "EGW") = [[2, 6]] ∧
    ([[2, 3]] : List (List ℚ)) ≠ [[1, 2]] ∧ ([[1, 4]] : List (List ℚ)) ≠ [[2, 6]] := by
  refine ⟨?_, ?_, ?_, ?_, ?_, by norm_num, by norm_num⟩ <;>
    (simp +decide [update_EGW, update_EGW_half, EGW2CalcV, OmGWCalcV, runEGWex, dupd, getArr,
      getMat, map2D, zip2D, meshK, meshT, scalZero]) <;> norm_num

/-- C2: evaluation of `update_Pi` on `runPiEx`, whose wavenumber grid starts
with a zero bin.  The mask `Pi[np.where(kij == 0)] = 0.` is computed after
the zeros of `kij` were replaced by 1, so it never fires: the zero-wavenumber
bin of `Pi` holds `Str*t²/36 = 36`, not 0. -/
theorem update_Pi_zero_bin_eval :
    getArr runPiEx.spectra "k" = [0, 1] ∧
    getMat (update_Pi runPiEx).spectra "Pi" = [[36, 36]] ∧
    ((getMat (update_Pi runPiEx).spectra "Pi").getD 0 []).getD 0 0 ≠ 0 := by
  have h : getMat (update_Pi runPiEx).spectra "Pi" = [[36, 36]] := by
    simp +decide [update_Pi, PiCalcV, runPiEx, dupd, getArr, getMat, map2D, zip2D, meshK,
      meshT, scalZero]
  refine ⟨by decide, h, ?_⟩
  rw [h]; norm_num

/-- C3: evaluation of `check_max_spectra_ts` on `runCMex`.  The time-series
maximum 5 wins (the spectral-mean maximum 3 is not larger), so the claim (and
the docstring, "kf: spectral peak at tmax") call for the peak-location
series interpolated onto the time-series grid at the time-series argmax
index 1, i.e. 20; the code instead indexes that array at `np.argmax(mean)`,
the spectral argmax 2, and returns 30. -/
theorem check_max_kf_eval :
    check_max_spectra_ts runCMex "kin" "EEK" = (5, 1, 30) ∧
    argmaxIdx (getArr runCMex.ts "EEK") = 1 ∧
    ((getArr runCMex.ts "t").map (fun x =>
        interp1 x (getArr runCMex.spectra "t_kin") (getArr runCMex.spectra "kin_kpeak"))).getD
      (argmaxIdx (getArr runCMex.ts "EEK")) 0 = 20 ∧
    (30 : ℚ) ≠ 20 := by
  refine ⟨?_, by decide, ?_, by norm_num⟩
  · simp +decide [check_max_spectra_ts, runCMex, getArr, argmaxIdx, argmaxAux, interp1, scalZero]
    norm_num [interp1]
  · simp +decide [runCMex, getArr, argmaxIdx, argmaxAux, interp1, scalZero]

/-- C8: evaluation of the `hc_Sf` round trip at `f = 4` (Hz), `Sf = 1`
(in `1/Hz³`), over exact reals.  The forward direction gives
`hc = sqrt(12 pi²) * sqrt(64)`; the `d = -1` branch divides `hc²` by
`12 pi² f^(3/2)` instead of `12 pi² f³`, so the round trip returns
`Sf * f^(3/2) = 8`, not `Sf = 1`. -/
theorem hc_Sf_roundtrip_eval : hc_Sf 4 (hc_Sf 4 1 1) (-1) = 8 ∧ (8 : ℝ) ≠ 1 := by
  constructor
  · have h1 : hc_Sf 4 1 1 = Real.sqrt (12 * Real.pi ^ 2) * Real.sqrt 64 := by
      simp only [hc_Sf]
      norm_num
    have h2 : hc_Sf 4 (hc_Sf 4 1 1) (-1) =
        (Real.sqrt (12 * Real.pi ^ 2) * Real.sqrt 64) ^ 2 / 12 / Real.pi ^ 2 /
          (4 : ℝ) ^ ((3 : ℝ) / 2) := by
      rw [h1]; simp only [hc_Sf]; norm_num
    have hs1 : (Real.sqrt (12 * Real.pi ^ 2)) ^ 2 = 12 * Real.pi ^ 2 :=
      Real.sq_sqrt (by positivity)
    have hs2 : (Real.sqrt 64) ^ 2 = 64 := Real.sq_sqrt (by norm_num)
    have hr : (4 : ℝ) ^ ((3 : ℝ) / 2) = 8 := by
      have h3 : ((3 : ℝ) / 2) = (3 : ℝ) * (1 / 2 : ℝ) := by ring
      have h4 : (4 : ℝ) ^ (3 : ℝ) = 64 := by
        rw [show (3 : ℝ) = ((3 : ℕ) : ℝ) by norm_num, Real.rpow_natCast]; norm_num
      rw [h3, Real.rpow_mul (by norm_num : (0 : ℝ) ≤ 4), h4,
        show (1 / 2 : ℝ) = (((2 : ℕ) : ℝ)⁻¹) by norm_num,
        show (64 : ℝ) = (8 : ℝ) ^ (2 : ℕ) by norm_num,
        Real.pow_rpow_inv_natCast (by norm_num : (0 : ℝ) ≤ 8) (by norm_num)]
    rw [h2, mul_pow, hs1, hs2, hr]
    have hpi : Real.pi ≠ 0 := Real.pi_ne_zero
    field_simp
    ring
  · norm_num

/-- C9: `read_spectrum`, `read_k` and `read_L` reach their final
`if dir_data != '.': os.chdir(dir0)` with `dir0` unbound, so for every input
they raise `NameError` exactly when `dir_data` differs from `'.'`, and return
normally exactly when it is `'.'`. -/
theorem reading_nameerror_on_dir (lines : List String) (ak : List (List ℚ))
    (plines : List String) (d : String) :
    ((read_spectrum lines d).isOk ↔ d = ".") ∧
    (read_spectrum lines d = Except.error PyErr.nameErrorDir0 ↔ d ≠ ".") ∧
    ((read_k ak d).isOk ↔ d = ".") ∧
    (read_k ak d = Except.error PyErr.nameErrorDir0 ↔ d ≠ ".") ∧
    ((read_L plines d).isOk ↔ d = ".") ∧
    (read_L plines d = Except.error PyErr.nameErrorDir0 ↔ d ≠ ".") := by
  by_cases hd : d = "." <;>
    simp [read_spectrum, read_k, read_L, hd, Except.isOk, Except.toBool]

/-- `pyHead` of an appended dash. -/
theorem pyHead_dash_append (s : String) : pyHead ("-" ++ s) = '-' := by
  simp [pyHead, String.data_append]

/-- A token whose head is a dash contains a dash. -/
theorem hasDash_of_pyHead (s : String) (h : pyHead s = '-') : hasDash s = true := by
  cases hsd : s.data with
  | nil => simp [pyHead, hsd] at h
  | cons c cs =>
      simp only [pyHead, hsd, List.headD_cons] at h
      subst h
      simp [hasDash, hsd, List.contains_cons]

/-- A token without a dash is unchanged by the exponent repair. -/
theorem fixExpToken_no_dash (s : String) (h : hasDash s = false) : fixExpToken s = s := by
  simp [fixExpToken, h]

/-- Once the `neg` flag of the `read_ts` record loop is set, every token of
the rest of the record is emitted with a leading `-`, and a token containing
no `-` of its own is emitted exactly as `'-' + token`. -/
theorem fixTokensAux_true_head (l : List String) (j : ℕ) (hj : j < l.length) :
    pyHead ((fixTokensAux true l).getD j "") = '-' ∧
    (hasDash (l.getD j "") = false →
      (fixTokensAux true l).getD j "" = "-" ++ l.getD j "") := by
  induction l generalizing j with
  | nil => simp at hj
  | cons s rest ih =>
      have hstep : fixTokensAux true (s :: rest)
          = ("-" ++ fixExpToken (if pyHead s = '-' then String.mk s.data.tail else s))
            :: fixTokensAux true rest := by
        by_cases hsn : pyHead s = '-' <;> simp [fixTokensAux, hsn]
      cases j with
      | zero =>
          rw [hstep]
          refine ⟨pyHead_dash_append _, fun hcon => ?_⟩
          simp only [List.getD_cons_zero] at hcon ⊢
          have hsn : ¬ pyHead s = '-' := fun h => by
            rw [hasDash_of_pyHead s h] at hcon; exact Bool.true_eq_false.mp hcon
          rw [if_neg hsn, fixExpToken_no_dash s hcon]
      | succ j2 =>
          have hj2 : j2 < rest.length := by simpa using hj
          have h2 := ih j2 hj2
          rw [hstep]
          exact ⟨h2.1, fun hcon => h2.2 hcon⟩

/-- C10: in `read_ts` fallback mode, the `neg` flag set by the first token
beginning with `-` is never reset within the record: every later token is
given a leading `-` before numeric conversion (in particular a plain positive
token following a negative one is parsed as negative). -/
theorem read_ts_neg_flag_propagates (r : List String) (i j : ℕ) (hij : i ≤ j)
    (hj : j < r.length) (hne : ∀ s ∈ r, s ≠ "")
    (hneg : pyHead (r.getD i "") = '-') :
    pyHead ((read_ts_fix_record r).getD j "") = '-' ∧
    (hasDash (r.getD j "") = false →
      (read_ts_fix_record r).getD j "" = "-" ++ r.getD j "") := by
  induction r generalizing i j with
  | nil => simp at hj
  | cons s rest ih =>
      cases i with
      | zero =>
          simp only [List.getD_cons_zero] at hneg
          have hstep : read_ts_fix_record (s :: rest)
              = ("-" ++ fixExpToken (String.mk s.data.tail)) :: fixTokensAux true rest := by
            simp [read_ts_fix_record, fixTokensAux, hneg]
          cases j with
          | zero =>
              rw [hstep]
              refine ⟨pyHead_dash_append _, fun hcon => ?_⟩
              exfalso
              simp only [List.getD_cons_zero] at hcon
              rw [hasDash_of_pyHead s hneg] at hcon
              exact Bool.true_eq_false.mp hcon
          | succ j2 =>
              have hj2 : j2 < rest.length := by simpa using hj
              have h2 := fixTokensAux_true_head rest j2 hj2
              rw [hstep]
              exact ⟨h2.1, fun hcon => h2.2 (by simpa using hcon)⟩
      | succ i2 =>
          cases j with
          | zero => omega
          | succ j2 =>
              have hj2 : j2 < rest.length := by simpa using hj
              have hne2 : ∀ x ∈ rest, x ≠ "" := fun x hx => hne x (List.mem_cons_of_mem _ hx)
              have hneg2 : pyHead (rest.getD i2 "") = '-' := by simpa using hneg
              by_cases hsn : pyHead s = '-'
              · have hstep : read_ts_fix_record (s :: rest)
                    = ("-" ++ fixExpToken (String.mk s.data.tail)) :: fixTokensAux true rest := by
                  simp [read_ts_fix_record, fixTokensAux, hsn]
                have h2 := fixTokensAux_true_head rest j2 hj2
                rw [hstep]
                exact ⟨h2.1, fun hcon => h2.2 (by simpa using hcon)⟩
              · have hstep : read_ts_fix_record (s :: rest)
                    = fixExpToken s :: fixTokensAux false rest := by
                  simp [read_ts_fix_record, fixTokensAux, hsn]
                have h2 := ih i2 j2 (by omega) hj2 hne2 hneg2
                rw [hstep]
                exact ⟨h2.1, fun hcon => h2.2 (by simpa using hcon)⟩

/-- Witness for C10 at the record `["-2.0", "3.0"]`: the positive token
`"3.0"` that follows the negative one is emitted as `"-3.0"`. -/
theorem read_ts_neg_flag_propagates_witness :
    pyHead ((read_ts_fix_record ["-2.0", "3.0"]).getD 1 "") = '-' ∧
    (hasDash (["-2.0", "3.0"].getD 1 "") = false →
      (read_ts_fix_record ["-2.0", "3.0"]).getD 1 "" = "-" ++ ["-2.0", "3.0"].getD 1 "") :=
  read_ts_neg_flag_propagates ["-2.0", "3.0"] 0 1 (by decide) (by decide) (by decide) (by decide)

/-- C7: if the time series has `EEM` and `EEK` but neither `umax` nor `bmax`
(nor any of the derived peak keys), `compute_total_max_energies` stores
`EEtot = EEM + EEK` (elementwise) and leaves `EEKmax`, `EEMmax`, `EEtotmax`
absent. -/
theorem compute_total_only_EEtot (s : RunState)
    (hM : "EEM" ∈ s.ts_avail) (hK : "EEK" ∈ s.ts_avail)
    (hu : "umax" ∉ s.ts_avail) (hb : "bmax" ∉ s.ts_avail)
    (eem eek : List ℚ) (hEM : s.ts "EEM" = some (.arr eem)) (hEK : s.ts "EEK" = some (.arr eek))
    (hKm : s.ts "EEKmax" = none) (hMm : s.ts "EEMmax" = none)
    (htm : s.ts "EEtotmax" = none) :
    (compute_total_max_energies s).ts "EEtot"
      = some (.arr (List.zipWith (fun a b => a + b) eem eek)) ∧
    (compute_total_max_energies s).ts "EEKmax" = none ∧
    (compute_total_max_energies s).ts "EEMmax" = none ∧
    (compute_total_max_energies s).ts "EEtotmax" = none := by
  have hzip : List.zipWith (fun a b : ℚ => a + b) eek eem
      = List.zipWith (fun a b : ℚ => a + b) eem eek :=
    List.zipWith_comm_of_comm _ (fun a b => add_comm a b) _ _
  refine ⟨?_, ?_, ?_, ?_⟩ <;>
    simp +decide [compute_total_max_energies, hM, hK, hu, hb, dupd, getArr, hEM, hEK,
      hKm, hMm, htm, hzip]

/-- A run whose time series holds only `t`, `EEM = [1, 2]`, `EEK = [3, 4]`. -/
def runTotEx : RunState :=
  { spectra := fun _ => none, spectra_avail := [],
    ts := fun key =>
      if key = "t" then some (.arr [0, 1])
      else if key = "EEM" then some (.arr [1, 2])
      else if key = "EEK" then some (.arr [3, 4])
      else none,
    ts_avail := ["EEM", "EEK"], scal := scalZero }

/-- Witness for C7 on `runTotEx`. -/
theorem compute_total_only_EEtot_witness :
    (compute_total_max_energies runTotEx).ts "EEtot"
      = some (.arr (List.zipWith (fun a b => a + b) [1, 2] [3, 4])) ∧
    (compute_total_max_energies runTotEx).ts "EEKmax" = none ∧
    (compute_total_max_energies runTotEx).ts "EEMmax" = none ∧
    (compute_total_max_energies runTotEx).ts "EEtotmax" = none :=
  compute_total_only_EEtot runTotEx (by decide) (by decide) (by decide) (by decide)
    [1, 2] [3, 4] (by decide) (by decide) (by decide) (by decide) (by decide)

/-- The times returned by the `read_spectrum` loop are exactly the stripped
header-width rows, in file order. -/
theorem spLoop_times (len_st : ℕ) (specs : List (List String)) (ls : List String) :
    (spLoop len_st specs ls).1
      = (ls.filter (fun l => (pyStrip l).length == len_st)).map pyStrip := by
  induction ls generalizing specs with
  | nil => simp [spLoop]
  | cons line rest ih =>
      by_cases hc : (pyStrip line).length = len_st
      · simp [spLoop, hc, List.filter_cons, ih]
      · simp [spLoop, hc, List.filter_cons, ih]

/-- The time array of `read_spectrum` equals `headerTimes`: the parsed
header-width rows in file order (no sorting takes place). -/
theorem read_spectrum_core_times (lines : List String) :
    (read_spectrum_core lines).1 = headerTimes lines := by
  cases lines with
  | nil => rfl
  | cons l0 rest =>
      simp only [read_spectrum_core, headerTimes]
      rw [spLoop_times]
      simp [List.map_map, Function.comp_def]

/-- C4 (counterexample): a spectrum file whose two time blocks carry times 3
and 1 (in that order) is ingested with `t_S = [3, 1]`, which is not
monotonic: `read_spectrum` does not sort. -/
theorem read_spectrum_unsorted_counterexample :
    read_spectrum ["3", "7 8", "1", "7 8"] "." = Except.ok ([3, 1], [[7, 8], [7, 8]]) ∧
    ¬ List.Chain' (· ≤ ·) [(3 : ℚ), 1] := by
  constructor
  · simp +decide [read_spectrum, read_spectrum_core, spLoop, reshapeBlock, pySplit, pyStrip,
      trimChars, splitChars, parseFloat, parseFloatPos, parseExp, digitsVal, List.range_succ]
  · intro h
    rw [List.chain'_cons] at h
    exact absurd h.1 (by norm_num)

/-- C4 (amended): `read_spectrum` (as invoked by `read_spectra_runs`, with
`dir_data = '.'`) returns the times in file order, without sorting; the time
array is monotonic exactly when the header-width rows of the file are already
in ascending order. -/
theorem read_spectrum_times_file_order (lines : List String)
    (hs : List.Chain' (· ≤ ·) (headerTimes lines)) :
    read_spectrum lines "." = Except.ok (read_spectrum_core lines) ∧
    (read_spectrum_core lines).1 = headerTimes lines ∧
    List.Chain' (· ≤ ·) (read_spectrum_core lines).1 := by
  refine ⟨by simp [read_spectrum], read_spectrum_core_times lines, ?_⟩
  rw [read_spectrum_core_times lines]
  exact hs

/-- Witness for the amended C4 on a file whose blocks are in ascending time
order. -/
theorem read_spectrum_times_file_order_witness :
    read_spectrum ["1", "7 8", "2", "7 8"] "."
      = Except.ok (read_spectrum_core ["1", "7 8", "2", "7 8"]) ∧
    (read_spectrum_core ["1", "7 8", "2", "7 8"]).1 = headerTimes ["1", "7 8", "2", "7 8"] ∧
    List.Chain' (· ≤ ·) (read_spectrum_core ["1", "7 8", "2", "7 8"]).1 :=
  read_spectrum_times_file_order ["1", "7 8", "2", "7 8"] (by
    simp +decide [headerTimes, pyStrip, trimChars, parseFloat, parseFloatPos, parseExp,
      digitsVal, List.chain'_cons, List.chain'_singleton])

/-! String-key disjointness infrastructure for the reduction loop. -/

theorem str_append_left_cancel {m a b : String} (he : m ++ a = m ++ b) : a = b := by
  have hd : m.data ++ a.data = m.data ++ b.data := by
    rw [← String.data_append, ← String.data_append, he]
  exact String.ext (List.append_cancel_left hd)

theorem str_append_left_ne (m : String) {a b : String} (h : a ≠ b) : m ++ a ≠ m ++ b :=
  fun he => h (str_append_left_cancel he)

/-- The three keys written by one iteration of the
`compute_mean_max_spectra` loop. -/
def sufKeys (m : String) : List String :=
  [m ++ "_kpeak", m ++ "_max", m ++ "_mean"]

/-- The spectrum names of a run are benign for the reduction loop: no
written reduction key collides with a spectrum name or its time grid, and
written keys of different spectra are distinct. -/
abbrev MeanOK (L : List String) : Prop :=
  ∀ m ∈ L, ∀ w ∈ sufKeys m,
    (∀ x ∈ L, w ≠ x ∧ w ≠ "t_" ++ x) ∧
    (∀ m' ∈ L, ∀ w' ∈ sufKeys m', w = w' → m = m')

theorem MeanOK.tail {m0 : String} {L : List String} (h : MeanOK (m0 :: L)) : MeanOK L :=
  fun m hm w hw =>
    ⟨fun x hx => ((h m (List.mem_cons_of_mem _ hm) w hw).1 x (List.mem_cons_of_mem _ hx)),
     fun m' hm' w' hw' he =>
       (h m (List.mem_cons_of_mem _ hm) w hw).2 m' (List.mem_cons_of_mem _ hm') w' hw' he⟩

theorem getArr_of_arr {d : Dict} {key : String} {a : List ℚ} (h : d key = some (.arr a)) :
    getArr d key = a := by
  simp [getArr, h]

theorem getMat_of_mat {d : Dict} {key : String} {a : List (List ℚ)}
    (h : d key = some (.mat a)) : getMat d key = a := by
  simp [getMat, h]

theorem getArr_congr {d1 d2 : Dict} {key : String} (h : d1 key = d2 key) :
    getArr d1 key = getArr d2 key := by
  simp [getArr, h]

theorem getMat_congr {d1 d2 : Dict} {key : String} (h : d1 key = d2 key) :
    getMat d1 key = getMat d2 key := by
  simp [getMat, h]

/-- Keys other than the three reduction keys of `m` survive one loop step. -/
theorem meanStep_preserve (k : List ℚ) (d : Dict) (m key : String)
    (h : ∀ w ∈ sufKeys m, key ≠ w) :
    meanStep k d m key = d key := by
  simp only [meanStep]
  rw [dupd_ne _ _ _ _ (h _ (by simp [sufKeys])),
    dupd_ne _ _ _ _ (h _ (by simp [sufKeys])),
    dupd_ne _ _ _ _ (h _ (by simp [sufKeys]))]

/-- Keys not written by any iteration survive the whole loop. -/
theorem meanFold_preserve (k : List ℚ) (L : List String) (d : Dict) (key : String)
    (h : ∀ m ∈ L, ∀ w ∈ sufKeys m, key ≠ w) :
    L.foldl (meanStep k) d key = d key := by
  induction L generalizing d with
  | nil => rfl
  | cons m0 L2 ih =>
      rw [List.foldl_cons, ih _ (fun m hm w hw => h m (List.mem_cons_of_mem _ hm) w hw),
        meanStep_preserve _ _ _ _ (h m0 (List.mem_cons_self _ _))]

/-- The values written by one loop step, in terms of the dictionary it read. -/
theorem meanStep_char (k : List ℚ) (d : Dict) (m : String) :
    meanStep k d m (m ++ "_kpeak")
      = some (.arr (kpeakArr k (getArr d ("t_" ++ m)) ((getMat d m).map List.tail))) ∧
    meanStep k d m (m ++ "_max")
      = some (.arr (maxArr k (getArr d ("t_" ++ m)) ((getMat d m).map List.tail))) ∧
    meanStep k d m (m ++ "_mean")
      = some (.arr (meanArr k (getArr d ("t_" ++ m)) ((getMat d m).map List.tail))) := by
  refine ⟨?_, ?_, ?_⟩
  · simp only [meanStep]
    rw [dupd_ne _ _ _ _ (str_append_left_ne m (by decide)),
      dupd_ne _ _ _ _ (str_append_left_ne m (by decide)), dupd_same]
  · simp only [meanStep]
    rw [dupd_ne _ _ _ _ (str_append_left_ne m (by decide)), dupd_same]
  · simp only [meanStep]
    rw [dupd_same]

/-- The reduction values stored by the whole loop, for every listed spectrum,
in terms of the initial dictionary: under `MeanOK` no later iteration
clobbers them and no earlier iteration disturbed the inputs. -/
theorem meanFold_char (k : List ℚ) (L : List String) (hok : MeanOK L) (d0 : Dict)
    (m : String) (hm : m ∈ L) :
    L.foldl (meanStep k) d0 (m ++ "_kpeak")
      = some (.arr (kpeakArr k (getArr d0 ("t_" ++ m)) ((getMat d0 m).map List.tail))) ∧
    L.foldl (meanStep k) d0 (m ++ "_max")
      = some (.arr (maxArr k (getArr d0 ("t_" ++ m)) ((getMat d0 m).map List.tail))) ∧
    L.foldl (meanStep k) d0 (m ++ "_mean")
      = some (.arr (meanArr k (getArr d0 ("t_" ++ m)) ((getMat d0 m).map List.tail))) := by
  induction L generalizing d0 with
  | nil => simp at hm
  | cons m0 L2 ih =>
      rw [List.foldl_cons]
      by_cases hm2 : m ∈ L2
      · have hreads : getArr (meanStep k d0 m0) ("t_" ++ m) = getArr d0 ("t_" ++ m) := by
          refine getArr_congr (meanStep_preserve _ _ _ _ (fun w hw => ?_))
          exact fun he =>
            ((hok m0 (List.mem_cons_self _ _) w hw).1 m (List.mem_cons_of_mem _ hm2)).2 (he ▸ rfl)
        have hreads2 : getMat (meanStep k d0 m0) m = getMat d0 m := by
          refine getMat_congr (meanStep_preserve _ _ _ _ (fun w hw => ?_))
          exact fun he =>
            ((hok m0 (List.mem_cons_self _ _) w hw).1 m (List.mem_cons_of_mem _ hm2)).1 (he ▸ rfl)
        have h2 := ih (hok.tail) (meanStep k d0 m0) hm2
        rw [hreads, hreads2] at h2
        exact h2
      · have hm0 : m = m0 := by
          rcases List.mem_cons.mp hm with h | h
          · exact h
          · exact absurd h hm2
        subst hm0
        have hkeep : ∀ w ∈ sufKeys m, L2.foldl (meanStep k) (meanStep k d0 m) w
            = meanStep k d0 m w := by
          intro w hw
          refine meanFold_preserve _ _ _ _ (fun m' hm' w' hw' => ?_)
          intro he
          exact hm2 (((hok m' (List.mem_cons_of_mem _ hm') w' hw').2 m
            (List.mem_cons_self _ _) w hw (he ▸ rfl)) ▸ hm')
        have hc := meanStep_char k d0 m
        exact ⟨(hkeep _ (by simp [sufKeys])).trans hc.1,
          (hkeep _ (by simp [sufKeys])).trans hc.2.1,
          (hkeep _ (by simp [sufKeys])).trans hc.2.2⟩

theorem range_map_getD (n : ℕ) (f : ℕ → ℚ) (i : ℕ) (hi : i < n) :
    ((List.range n).map f).getD i 0 = f i := by
  rw [List.getD_eq_getElem?_getD, List.getElem?_map, List.getElem?_range hi]
  rfl

theorem map_tail_getD (E : List (List ℚ)) (i : ℕ) :
    (E.map List.tail).getD i [] = (E.getD i []).tail := by
  rw [List.getD_eq_getElem?_getD, List.getElem?_map, List.getD_eq_getElem?_getD]
  cases E[i]? <;> rfl

/-- C6: for every available spectrum `m` (with benign names) and every time
index `i`, the reduced value stored under `m_mean` by
`compute_mean_max_spectra` is the trapezoidal integral of the spectrum row
with its zero-wavenumber bin dropped, `S[i, 1:]`, over the wavenumber grid
with its zero bin dropped, `k[1:]`. -/
theorem compute_mean_max_spectra_mean_trapz (s : RunState)
    (hok : MeanOK s.spectra_avail)
    (m : String) (hm : m ∈ s.spectra_avail)
    (E : List (List ℚ)) (hE : s.spectra m = some (.mat E))
    (t : List ℚ) (ht : s.spectra ("t_" ++ m) = some (.arr t))
    (i : ℕ) (hi : i < t.length) :
    (getArr (compute_mean_max_spectra s).spectra (m ++ "_mean")).getD i 0
      = trapz ((E.getD i []).tail) ((getArr s.spectra "k").tail) := by
  have hchar := (meanFold_char ((getArr s.spectra "k").tail) s.spectra_avail hok
    s.spectra m hm).2.2
  have hgetE : getMat s.spectra m = E := by simp [getMat, hE]
  have hgetT : getArr s.spectra ("t_" ++ m) = t := by simp [getArr, ht]
  rw [hgetE, hgetT] at hchar
  have hres : getArr (compute_mean_max_spectra s).spectra (m ++ "_mean")
      = meanArr ((getArr s.spectra "k").tail) t (E.map List.tail) := by
    simp only [compute_mean_max_spectra]
    exact getArr_of_arr hchar
  rw [hres]
  simp only [meanArr]
  rw [range_map_getD _ _ _ hi, map_tail_getD]

/-- A run with one spectrum `mag = [[5, 1, 3]]` on `k = [0, 1, 2]` at the
single time 0. -/
def runMeanEx : RunState :=
  { spectra := fun key =>
      if key = "k" then some (.arr [0, 1, 2])
      else if key = "mag" then some (.mat [[5, 1, 3]])
      else if key = "t_mag" then some (.arr [0])
      else none,
    spectra_avail := ["mag"],
    ts := fun _ => none, ts_avail := [], scal := scalZero }

/-- Witness for C6 on `runMeanEx` at time index 0. -/
theorem compute_mean_max_spectra_mean_trapz_witness :
    (getArr (compute_mean_max_spectra runMeanEx).spectra ("mag" ++ "_mean")).getD 0 0
      = trapz ((([[5, 1, 3]] : List (List ℚ)).getD 0 []).tail)
          ((getArr runMeanEx.spectra "k").tail) :=
  compute_mean_max_spectra_mean_trapz runMeanEx (by decide) "mag" (by decide)
    [[5, 1, 3]] (by decide) [0] (by decide) 0 (by decide)

/-! Stage lemmas for the idempotence of `characterize_run` (C5). -/

/-- The spectrum names that the derivation stages may append to
`spectra_avail`. -/
def derivedNames : List String :=
  ["Pi", "helPi", "EGW", "OmGW", "EGW_tot", "OmGW_tot",
   "helEGW", "helOmGW", "helEGW_tot", "helOmGW_tot"]

/-- The spectrum names of an ingested run are benign for the whole pipeline:
the reduction keys written by `compute_mean_max_spectra` (over the base names
and the derived names) clobber neither a spectrum, nor a time grid, nor the
wavenumber grid `k`, and are mutually consistent. -/
abbrev PipeNamesOK (A : List String) : Prop :=
  MeanOK (A ++ derivedNames) ∧
  ∀ m ∈ A ++ derivedNames, ∀ w ∈ sufKeys m, w ≠ "k"

theorem MeanOK_sublist {L' L : List String} (hsub : ∀ x ∈ L', x ∈ L) (h : MeanOK L) :
    MeanOK L' :=
  fun m hm w hw =>
    ⟨fun x hx => (h m (hsub m hm) w hw).1 x (hsub x hx),
     fun m' hm' w' hw' he => (h m (hsub m hm) w hw).2 m' (hsub m' hm') w' hw' he⟩

/-- One reduction step is the identity when the three values it writes are
already stored. -/
theorem meanStep_noop (k : List ℚ) (d : Dict) (m : String)
    (h1 : d (m ++ "_kpeak")
        = some (.arr (kpeakArr k (getArr d ("t_" ++ m)) ((getMat d m).map List.tail))))
    (h2 : d (m ++ "_max")
        = some (.arr (maxArr k (getArr d ("t_" ++ m)) ((getMat d m).map List.tail))))
    (h3 : d (m ++ "_mean")
        = some (.arr (meanArr k (getArr d ("t_" ++ m)) ((getMat d m).map List.tail)))) :
    meanStep k d m = d := by
  simp only [meanStep]
  rw [dupd_noop _ _ _ h1, dupd_noop _ _ _ h2, dupd_noop _ _ _ h3]

/-- The reduction loop is the identity when every step is. -/
theorem meanFold_noop (k : List ℚ) (L : List String) (d : Dict)
    (h : ∀ m ∈ L, meanStep k d m = d) :
    L.foldl (meanStep k) d = d := by
  induction L with
  | nil => rfl
  | cons m0 L2 ih =>
      rw [List.foldl_cons, h m0 (List.mem_cons_self _ _),
        ih (fun m hm => h m (List.mem_cons_of_mem _ hm))]

/-! `update_Pi` stage lemmas. -/

theorem update_Pi_ts (s : RunState) : (update_Pi s).ts = s.ts := by
  simp only [update_Pi]
  repeat' split
  all_goals rfl

theorem update_Pi_ts_avail (s : RunState) : (update_Pi s).ts_avail = s.ts_avail := by
  simp only [update_Pi]
  repeat' split
  all_goals rfl

theorem update_Pi_scal (s : RunState) : (update_Pi s).scal = s.scal := by
  simp only [update_Pi]
  repeat' split
  all_goals rfl

theorem update_Pi_frame (s : RunState) (key : String) (h1 : key ≠ "Pi")
    (h2 : key ≠ "t_Pi") (h3 : key ≠ "helPi") (h4 : key ≠ "t_helPi") :
    (update_Pi s).spectra key = s.spectra key := by
  simp only [update_Pi]
  repeat' split
  all_goals simp [dupd, h1, h2, h3, h4]

theorem update_Pi_avail_mono (s : RunState) (x : String) (hx : x ∈ s.spectra_avail) :
    x ∈ (update_Pi s).spectra_avail := by
  simp only [update_Pi]
  repeat' split
  all_goals simp [List.mem_append, hx]

theorem update_Pi_avail_sub (s : RunState) (x : String)
    (hx : x ∈ (update_Pi s).spectra_avail) :
    x ∈ s.spectra_avail ∨ x = "Pi" ∨ x = "helPi" := by
  simp only [update_Pi] at hx
  repeat' split at hx
  all_goals (try simp only [List.mem_append, List.mem_singleton] at hx)
  all_goals tauto

theorem update_Pi_char (s : RunState) (hStr : "Str" ∈ s.spectra_avail) :
    (update_Pi s).spectra "Pi" = some (.mat (PiCalcV (getArr s.spectra "k")
        (getArr s.spectra "t_Str") (getMat s.spectra "Str"))) ∧
    (update_Pi s).spectra "t_Pi" = some (.arr (getArr s.spectra "t_Str")) := by
  simp only [update_Pi]
  rw [if_pos hStr]
  repeat' split
  all_goals (constructor <;> simp +decide [dupd])

theorem update_Pi_char_hel (s : RunState) (hStr : "Str" ∈ s.spectra_avail)
    (hhel : "helStr" ∈ s.spectra_avail) :
    (update_Pi s).spectra "helPi" = some (.mat (helPiCalcV (getArr s.spectra "k")
        (getArr s.spectra "t_helStr") (getMat s.spectra "helStr"))) ∧
    (update_Pi s).spectra "t_helPi" = some (.arr (getArr s.spectra "t_helStr")) := by
  simp only [update_Pi]
  rw [if_pos hStr]
  have hmem : "helStr" ∈ (if "Pi" ∈ s.spectra_avail then s.spectra_avail
      else s.spectra_avail ++ ["Pi"]) := by
    split <;> simp [List.mem_append, hhel]
  rw [if_pos hmem]
  constructor <;> simp +decide [dupd, getArr, getMat]

theorem update_Pi_has_Pi (s : RunState) (hStr : "Str" ∈ s.spectra_avail) :
    "Pi" ∈ (update_Pi s).spectra_avail := by
  simp only [update_Pi]
  rw [if_pos hStr]
  repeat' split
  all_goals simp_all [List.mem_append]

theorem update_Pi_has_helPi (s : RunState) (hStr : "Str" ∈ s.spectra_avail)
    (hhel : "helStr" ∈ s.spectra_avail) :
    "helPi" ∈ (update_Pi s).spectra_avail := by
  simp only [update_Pi]
  rw [if_pos hStr]
  have hmem : "helStr" ∈ (if "Pi" ∈ s.spectra_avail then s.spectra_avail
      else s.spectra_avail ++ ["Pi"]) := by
    split <;> simp [List.mem_append, hhel]
  rw [if_pos hmem]
  repeat' split
  all_goals simp_all [List.mem_append]

theorem update_Pi_noop (s : RunState)
    (hPiV : s.spectra "Pi" = some (.mat (PiCalcV (getArr s.spectra "k")
        (getArr s.spectra "t_Str") (getMat s.spectra "Str"))))
    (htPiV : s.spectra "t_Pi" = some (.arr (getArr s.spectra "t_Str")))
    (hPiM : "Pi" ∈ s.spectra_avail)
    (hhel : "helStr" ∈ s.spectra_avail →
      s.spectra "helPi" = some (.mat (helPiCalcV (getArr s.spectra "k")
        (getArr s.spectra "t_helStr") (getMat s.spectra "helStr"))) ∧
      s.spectra "t_helPi" = some (.arr (getArr s.spectra "t_helStr")) ∧
      "helPi" ∈ s.spectra_avail) :
    update_Pi s = s := by
  by_cases hStr : "Str" ∈ s.spectra_avail
  · simp only [update_Pi]
    rw [if_pos hStr]
    have hsp1 : dupd (dupd s.spectra "Pi" (.mat (PiCalcV (getArr s.spectra "k")
        (getArr s.spectra "t_Str") (getMat s.spectra "Str")))) "t_Pi"
        (.arr (getArr s.spectra "t_Str")) = s.spectra := by
      rw [dupd_noop _ _ _ hPiV, dupd_noop _ _ _ htPiV]
    have hav1 : (if "Pi" ∈ s.spectra_avail then s.spectra_avail
        else s.spectra_avail ++ ["Pi"]) = s.spectra_avail := if_pos hPiM
    rw [hsp1, hav1]
    split
    · rename_i h2
      obtain ⟨hh1, hh2, hh3⟩ := hhel h2
      rw [dupd_noop _ _ _ hh1, dupd_noop _ _ _ hh2, if_pos hh3]
    · rfl
  · simp only [update_Pi]
    rw [if_neg hStr]

/-! `update_EGW_half` stage lemmas (generic in the spectrum names; they are
instantiated at the literal plain and helical name sets). -/

theorem update_EGW_half_ts (k' : List ℚ) (n1 n2 n3 n4 n5 n6 n7 : String) (s : RunState) :
    (update_EGW_half k' n1 n2 n3 n4 n5 n6 n7 s).ts = s.ts := by
  simp only [update_EGW_half]
  repeat' split
  all_goals rfl

theorem update_EGW_half_ts_avail (k' : List ℚ) (n1 n2 n3 n4 n5 n6 n7 : String)
    (s : RunState) :
    (update_EGW_half k' n1 n2 n3 n4 n5 n6 n7 s).ts_avail = s.ts_avail := by
  simp only [update_EGW_half]
  repeat' split
  all_goals rfl

theorem update_EGW_half_scal (k' : List ℚ) (n1 n2 n3 n4 n5 n6 n7 : String) (s : RunState) :
    (update_EGW_half k' n1 n2 n3 n4 n5 n6 n7 s).scal = s.scal := by
  simp only [update_EGW_half]
  repeat' split
  all_goals rfl

theorem update_EGW_half_frame (k' : List ℚ) (n1 n2 n3 n4 n5 n6 n7 : String) (s : RunState)
    (key : String) (h4 : key ≠ n4) (h5 : key ≠ n5)
    (ht4 : key ≠ "t_" ++ n4) (ht5 : key ≠ "t_" ++ n5)
    (h6 : key ≠ n6) (h7 : key ≠ n7)
    (ht6 : key ≠ "t_" ++ n6) (ht7 : key ≠ "t_" ++ n7) :
    (update_EGW_half k' n1 n2 n3 n4 n5 n6 n7 s).spectra key = s.spectra key := by
  simp only [update_EGW_half]
  repeat' split
  all_goals simp [dupd, h4, h5, ht4, ht5, h6, h7, ht6, ht7]

theorem update_EGW_half_avail_mono (k' : List ℚ) (n1 n2 n3 n4 n5 n6 n7 : String)
    (s : RunState) (x : String) (hx : x ∈ s.spectra_avail) :
    x ∈ (update_EGW_half k' n1 n2 n3 n4 n5 n6 n7 s).spectra_avail := by
  simp only [update_EGW_half]
  repeat' split
  all_goals simp [List.mem_append, hx]

set_option maxHeartbeats 1000000 in
theorem update_EGW_half_avail_sub (k' : List ℚ) (n1 n2 n3 n4 n5 n6 n7 : String)
    (s : RunState) (x : String)
    (hx : x ∈ (update_EGW_half k' n1 n2 n3 n4 n5 n6 n7 s).spectra_avail) :
    x ∈ s.spectra_avail ∨ x = n4 ∨ x = n5 ∨ x = n6 ∨ x = n7 := by
  simp only [update_EGW_half] at hx
  repeat' split at hx
  all_goals (try simp only [List.mem_append, List.mem_singleton] at hx)
  all_goals tauto

theorem update_EGW_half_has (k' : List ℚ) (n1 n2 n3 n4 n5 n6 n7 : String) (s : RunState)
    (hGWs : n1 ∈ s.spectra_avail) :
    n4 ∈ (update_EGW_half k' n1 n2 n3 n4 n5 n6 n7 s).spectra_avail ∧
    n5 ∈ (update_EGW_half k' n1 n2 n3 n4 n5 n6 n7 s).spectra_avail := by
  simp only [update_EGW_half]
  rw [if_pos hGWs]
  repeat' split
  all_goals try constructor
  all_goals try simp_all [List.mem_append]
  all_goals tauto

set_option maxHeartbeats 1600000 in
theorem update_EGW_half_has_tot (k' : List ℚ) (n1 n2 n3 n4 n5 n6 n7 : String)
    (s : RunState) (hGWs : n1 ∈ s.spectra_avail)
    (hex : n2 ∈ s.spectra_avail ∨ n3 ∈ s.spectra_avail) :
    n6 ∈ (update_EGW_half k' n1 n2 n3 n4 n5 n6 n7 s).spectra_avail ∧
    n7 ∈ (update_EGW_half k' n1 n2 n3 n4 n5 n6 n7 s).spectra_avail := by
  simp only [update_EGW_half]
  rw [if_pos hGWs]
  repeat' split
  all_goals try constructor
  all_goals try simp_all [List.mem_append]
  all_goals tauto

theorem update_EGW_half_not (k' : List ℚ) (n1 n2 n3 n4 n5 n6 n7 : String) (s : RunState)
    (hGWs : n1 ∉ s.spectra_avail) :
    update_EGW_half k' n1 n2 n3 n4 n5 n6 n7 s = s := by
  simp only [update_EGW_half]
  rw [if_neg hGWs]

/-- The result of one half of `update_EGW` (when its input spectrum is
available), with the availability tests of the accumulated terms rewritten
from the extended list to `s.spectra_avail` itself. -/
theorem update_EGW_half_eq (k' : List ℚ) (n1 n2 n3 n4 n5 n6 n7 : String) (s : RunState)
    (hGWs : n1 ∈ s.spectra_avail)
    (h24 : n2 ≠ n4) (h25 : n2 ≠ n5) (h34 : n3 ≠ n4) (h35 : n3 ≠ n5) :
    update_EGW_half k' n1 n2 n3 n4 n5 n6 n7 s =
      (let t := getArr s.spectra ("t_" ++ n1)
       let OmGW := OmGWCalcV k' t (getMat s.spectra n1)
       let EGW2 := EGW2CalcV k' t (getMat s.spectra n1)
           (if n2 ∈ s.spectra_avail then some (getMat s.spectra n2) else none)
           (if n3 ∈ s.spectra_avail then some (getMat s.spectra n3) else none)
       let av1 := if n4 ∈ s.spectra_avail then s.spectra_avail else s.spectra_avail ++ [n4]
       let av2 := if n5 ∈ av1 then av1 else av1 ++ [n5]
       let d1 := dupd (dupd (dupd (dupd s.spectra n4 (.mat EGW2)) n5 (.mat OmGW))
           ("t_" ++ n4) (.arr t)) ("t_" ++ n5) (.arr t)
       if n2 ∈ s.spectra_avail ∨ n3 ∈ s.spectra_avail then
         let d2 := dupd (dupd (dupd (dupd d1 n6 (.mat EGW2))
             n7 (.mat (zip2D (fun a b => a * b) (meshK t k') EGW2)))
             ("t_" ++ n6) (.arr t)) ("t_" ++ n7) (.arr t)
         let av3 := if n6 ∈ av2 then av2 else av2 ++ [n6]
         let av4 := if n7 ∈ av3 then av3 else av3 ++ [n7]
         { s with spectra := d2, spectra_avail := av4 }
       else { s with spectra := d1, spectra_avail := av2 }) := by
  have hm2 : (n2 ∈ (if n5 ∈ (if n4 ∈ s.spectra_avail then s.spectra_avail
          else s.spectra_avail ++ [n4]) then
        (if n4 ∈ s.spectra_avail then s.spectra_avail else s.spectra_avail ++ [n4])
      else (if n4 ∈ s.spectra_avail then s.spectra_avail
          else s.spectra_avail ++ [n4]) ++ [n5]))
      = (n2 ∈ s.spectra_avail) := by
    apply propext
    split <;> (try split) <;> simp [List.mem_append, h24, h25]
  have hm3 : (n3 ∈ (if n5 ∈ (if n4 ∈ s.spectra_avail then s.spectra_avail
          else s.spectra_avail ++ [n4]) then
        (if n4 ∈ s.spectra_avail then s.spectra_avail else s.spectra_avail ++ [n4])
      else (if n4 ∈ s.spectra_avail then s.spectra_avail
          else s.spectra_avail ++ [n4]) ++ [n5]))
      = (n3 ∈ s.spectra_avail) := by
    apply propext
    split <;> (try split) <;> simp [List.mem_append, h34, h35]
  simp only [update_EGW_half]
  rw [if_pos hGWs]
  simp only [hm2, hm3]

/-! `compute_mean_max_spectra`, `compute_rho` and `compute_total_max_energies`
stage lemmas. -/

theorem compute_mean_shape (s : RunState) :
    (compute_mean_max_spectra s).spectra_avail = s.spectra_avail ∧
    (compute_mean_max_spectra s).ts = s.ts ∧
    (compute_mean_max_spectra s).ts_avail = s.ts_avail ∧
    (compute_mean_max_spectra s).scal = s.scal :=
  ⟨rfl, rfl, rfl, rfl⟩

theorem compute_rho_shape (s : RunState) :
    (compute_rho s).spectra = s.spectra ∧
    (compute_rho s).spectra_avail = s.spectra_avail ∧
    (compute_rho s).scal = s.scal := by
  refine ⟨?_, ?_, ?_⟩ <;> (simp only [compute_rho]; repeat' split) <;> rfl

theorem compute_rho_ts_frame (s : RunState) (key : String) (h : key ≠ "rho") :
    (compute_rho s).ts key = s.ts key := by
  simp only [compute_rho]
  repeat' split
  all_goals simp [dupd, h]

theorem compute_rho_ts_avail_sub (s : RunState) (x : String)
    (hx : x ∈ (compute_rho s).ts_avail) : x ∈ s.ts_avail ∨ x = "rho" := by
  simp only [compute_rho] at hx
  repeat' split at hx
  all_goals (try simp only [List.mem_append, List.mem_singleton] at hx)
  all_goals tauto

theorem compute_rho_ts_avail_mono (s : RunState) (x : String) (hx : x ∈ s.ts_avail) :
    x ∈ (compute_rho s).ts_avail := by
  simp only [compute_rho]
  repeat' split
  all_goals simp [List.mem_append, hx]

theorem compute_rho_char (s : RunState)
    (hc : "urms" ∈ s.ts_avail ∧ "EEK" ∈ s.ts_avail) :
    (compute_rho s).ts "rho"
      = some (.arr (rhoCalcV (getArr s.ts "urms") (getArr s.ts "EEK"))) := by
  simp only [compute_rho]
  rw [if_pos hc]
  simp [dupd]

theorem compute_rho_ts_noop (s : RunState)
    (h : "urms" ∈ s.ts_avail ∧ "EEK" ∈ s.ts_avail →
      s.ts "rho" = some (.arr (rhoCalcV (getArr s.ts "urms") (getArr s.ts "EEK")))) :
    (compute_rho s).ts = s.ts := by
  simp only [compute_rho]
  split
  · rename_i hc
    simp only
    rw [dupd_noop _ _ _ (h hc)]
  · rfl

theorem compute_total_shape (s : RunState) :
    (compute_total_max_energies s).spectra = s.spectra ∧
    (compute_total_max_energies s).spectra_avail = s.spectra_avail ∧
    (compute_total_max_energies s).scal = s.scal := by
  refine ⟨?_, ?_, ?_⟩ <;> (simp only [compute_total_max_energies]; repeat' split) <;> rfl

theorem compute_total_ts_frame (s : RunState) (key : String)
    (h1 : key ≠ "EEtot") (h2 : key ≠ "EEKmax") (h3 : key ≠ "EEMmax")
    (h4 : key ≠ "EEtotmax") :
    (compute_total_max_energies s).ts key = s.ts key := by
  simp only [compute_total_max_energies]
  repeat' split
  all_goals simp [dupd, h1, h2, h3, h4]

theorem compute_total_ts_avail_sub (s : RunState) (x : String)
    (hx : x ∈ (compute_total_max_energies s).ts_avail) :
    x ∈ s.ts_avail ∨ x = "EEtot" ∨ x = "EEKmax" ∨ x = "EEMmax" ∨ x = "EEtotmax" := by
  simp only [compute_total_max_energies] at hx
  repeat' split at hx
  all_goals (try simp only [List.mem_append, List.mem_singleton] at hx)
  all_goals tauto

theorem compute_total_ts_avail_mono (s : RunState) (x : String) (hx : x ∈ s.ts_avail) :
    x ∈ (compute_total_max_energies s).ts_avail := by
  simp only [compute_total_max_energies]
  repeat' split
  all_goals simp [List.mem_append, hx]

set_option maxHeartbeats 1000000 in
theorem compute_total_char_EEtot (s : RunState)
    (c1 : "EEM" ∈ s.ts_avail ∧ "EEK" ∈ s.ts_avail) :
    (compute_total_max_energies s).ts "EEtot"
      = some (.arr (List.zipWith (fun a b => a + b) (getArr s.ts "EEK")
          (getArr s.ts "EEM"))) := by
  simp only [compute_total_max_energies]
  rw [if_pos c1]
  repeat' split
  all_goals simp_all +decide [dupd, List.mem_append]

set_option maxHeartbeats 1000000 in
theorem compute_total_char_EEtot_neg (s : RunState)
    (c1 : ¬("EEM" ∈ s.ts_avail ∧ "EEK" ∈ s.ts_avail)) :
    (compute_total_max_energies s).ts "EEtot" = s.ts "EEtot" := by
  simp only [compute_total_max_energies]
  rw [if_neg c1]
  repeat' split
  all_goals simp_all +decide [dupd, List.mem_append]

set_option maxHeartbeats 1000000 in
theorem compute_total_char_EEKmax (s : RunState) (c2 : "umax" ∈ s.ts_avail) :
    (compute_total_max_energies s).ts "EEKmax"
      = some (.arr ((getArr s.ts "umax").map (fun x => x ^ 2 / 2))) := by
  simp only [compute_total_max_energies]
  repeat' split
  all_goals simp_all +decide [dupd, getArr, List.mem_append]

set_option maxHeartbeats 1000000 in
theorem compute_total_char_EEKmax_neg (s : RunState) (c2 : "umax" ∉ s.ts_avail) :
    (compute_total_max_energies s).ts "EEKmax" = s.ts "EEKmax" := by
  simp only [compute_total_max_energies]
  repeat' split
  all_goals simp_all +decide [dupd, getArr, List.mem_append]

set_option maxHeartbeats 1000000 in
theorem compute_total_char_EEMmax (s : RunState) (c3 : "bmax" ∈ s.ts_avail) :
    (compute_total_max_energies s).ts "EEMmax"
      = some (.arr ((getArr s.ts "bmax").map (fun x => x ^ 2 / 2))) := by
  simp only [compute_total_max_energies]
  repeat' split
  all_goals simp_all +decide [dupd, getArr, List.mem_append]

set_option maxHeartbeats 1000000 in
theorem compute_total_char_EEMmax_neg (s : RunState) (c3 : "bmax" ∉ s.ts_avail) :
    (compute_total_max_energies s).ts "EEMmax" = s.ts "EEMmax" := by
  simp only [compute_total_max_energies]
  repeat' split
  all_goals simp_all +decide [dupd, getArr, List.mem_append]

set_option maxHeartbeats 1000000 in
theorem compute_total_char_EEtotmax (s : RunState) (c3 : "bmax" ∈ s.ts_avail)
    (c2 : "umax" ∈ s.ts_avail) :
    (compute_total_max_energies s).ts "EEtotmax"
      = some (.arr (List.zipWith (fun a b => a + b)
          ((getArr s.ts "bmax").map (fun x => x ^ 2 / 2))
          ((getArr s.ts "umax").map (fun x => x ^ 2 / 2)))) := by
  simp only [compute_total_max_energies]
  repeat' split
  all_goals simp_all +decide [dupd, getArr, List.mem_append]

set_option maxHeartbeats 1000000 in
theorem compute_total_char_EEtotmax_neg (s : RunState)
    (c : ¬("bmax" ∈ s.ts_avail ∧ "umax" ∈ s.ts_avail)) :
    (compute_total_max_energies s).ts "EEtotmax" = s.ts "EEtotmax" := by
  simp only [compute_total_max_energies]
  repeat' split
  all_goals simp_all +decide [dupd, getArr, List.mem_append]

theorem compute_total_ts_noop (s : RunState)
    (hEE : "EEM" ∈ s.ts_avail ∧ "EEK" ∈ s.ts_avail →
        s.ts "EEtot" = some (.arr (List.zipWith (fun a b => a + b)
          (getArr s.ts "EEK") (getArr s.ts "EEM"))))
    (hu : "umax" ∈ s.ts_avail →
        s.ts "EEKmax" = some (.arr ((getArr s.ts "umax").map (fun x => x ^ 2 / 2))))
    (hb : "bmax" ∈ s.ts_avail →
        s.ts "EEMmax" = some (.arr ((getArr s.ts "bmax").map (fun x => x ^ 2 / 2))))
    (hbu : "bmax" ∈ s.ts_avail → "umax" ∈ s.ts_avail →
        s.ts "EEtotmax" = some (.arr (List.zipWith (fun a b => a + b)
          ((getArr s.ts "bmax").map (fun x => x ^ 2 / 2))
          ((getArr s.ts "umax").map (fun x => x ^ 2 / 2))))) :
    (compute_total_max_energies s).ts = s.ts := by
  funext key
  by_cases k1 : key = "EEtot"
  · subst k1
    by_cases c1 : "EEM" ∈ s.ts_avail ∧ "EEK" ∈ s.ts_avail
    · rw [compute_total_char_EEtot s c1, hEE c1]
    · rw [compute_total_char_EEtot_neg s c1]
  by_cases k2 : key = "EEKmax"
  · subst k2
    by_cases c2 : "umax" ∈ s.ts_avail
    · rw [compute_total_char_EEKmax s c2, hu c2]
    · rw [compute_total_char_EEKmax_neg s c2]
  by_cases k3 : key = "EEMmax"
  · subst k3
    by_cases c3 : "bmax" ∈ s.ts_avail
    · rw [compute_total_char_EEMmax s c3, hb c3]
    · rw [compute_total_char_EEMmax_neg s c3]
  by_cases k4 : key = "EEtotmax"
  · subst k4
    by_cases c4 : "bmax" ∈ s.ts_avail ∧ "umax" ∈ s.ts_avail
    · rw [compute_total_char_EEtotmax s c4.1 c4.2, hbu c4.1 c4.2]
    · rw [compute_total_char_EEtotmax_neg s c4]
  exact compute_total_ts_frame s key k1 k2 k3 k4

/-! Infrastructure for the idempotence of `characterize_run` (C5):
congruence of `check_max_spectra_ts`, the scalar block of `characterize_run`
as a function of the reduced state, and transport of the pipeline reads. -/

theorem check_max_congr (x y : RunState) (E EE : String)
    (hsp : x.spectra = y.spectra) (hsa : x.spectra_avail = y.spectra_avail)
    (ht : x.ts "t" = y.ts "t") (hEE : x.ts EE = y.ts EE)
    (hm : (EE ∈ x.ts_avail) = (EE ∈ y.ts_avail)) :
    check_max_spectra_ts x E EE = check_max_spectra_ts y E EE := by
  simp only [check_max_spectra_ts, hsp, hsa, hm, getArr_congr ht, getArr_congr hEE]

/-- The scalar block of `run.characterize_run` as a function of the reduced
state (the state after `compute_mean_max_spectra`); `characterize_run` is
definitionally `compute_total_max_energies ∘ compute_rho` applied to the
reduced state carrying these scalars. -/
def pipeScal (sq : ℚ → ℚ) (s3 : RunState) : Scalars :=
  let mM := check_max_spectra_ts s3 "mag" "EEM"
  let mK := check_max_spectra_ts s3 "kin" "EEK"
  let vA := sq (3 / 2 * mM.1)
  let vK := sq (2 * mK.1)
  let teM := if mM.2.2 ≠ 0 ∧ vA ≠ 0 then 1 / mM.2.2 / vA else 10 ^ 10
  let teK := if mK.2.2 ≠ 0 ∧ vK ≠ 0 then 1 / mK.2.2 / vK else 10 ^ 10
  if mM.1 > mK.1 then
    { turb := "m", Ommax := max mM.1 mK.1, OmMmax := mM.1, OmKmax := mK.1,
      tmaxM := mM.2.1, tmaxK := mK.2.1, kfM := mM.2.2, kfK := mK.2.2,
      vA := vA, vK := vK, teM := teM, teK := teK,
      tini := mM.2.1, kf := mM.2.2, v := vA, te := teM }
  else
    { turb := "k", Ommax := max mM.1 mK.1, OmMmax := mM.1, OmKmax := mK.1,
      tmaxM := mM.2.1, tmaxK := mK.2.1, kfM := mM.2.2, kfK := mK.2.2,
      vA := vA, vK := vK, teM := teM, teK := teK,
      tini := mK.2.1, kf := mK.2.2, v := vK, te := teK }

theorem characterize_decomp2 (sq : ℚ → ℚ) (s : RunState) :
    characterize_run sq s
      = compute_total_max_energies (compute_rho
          { compute_mean_max_spectra (update_EGW (update_Pi s)) with
            scal := pipeScal sq (compute_mean_max_spectra (update_EGW (update_Pi s))) }) :=
  rfl

theorem pipeScal_congr (sq : ℚ → ℚ) (x y : RunState)
    (hM : check_max_spectra_ts x "mag" "EEM" = check_max_spectra_ts y "mag" "EEM")
    (hK : check_max_spectra_ts x "kin" "EEK" = check_max_spectra_ts y "kin" "EEK") :
    pipeScal sq x = pipeScal sq y := by
  simp only [pipeScal, hM, hK]

theorem update_EGW_ts (s : RunState) : (update_EGW s).ts = s.ts := by
  simp only [update_EGW]
  rw [update_EGW_half_ts, update_EGW_half_ts]

theorem update_EGW_ts_avail (s : RunState) : (update_EGW s).ts_avail = s.ts_avail := by
  simp only [update_EGW]
  rw [update_EGW_half_ts_avail, update_EGW_half_ts_avail]

theorem update_Pi_avail_iff (s : RunState) (x : String)
    (h1 : x ≠ "Pi") (h2 : x ≠ "helPi") :
    x ∈ (update_Pi s).spectra_avail ↔ x ∈ s.spectra_avail :=
  ⟨fun hx => ((update_Pi_avail_sub s x hx).resolve_right (by tauto)),
   update_Pi_avail_mono s x⟩

theorem update_EGW_half_avail_iff (k' : List ℚ) (n1 n2 n3 n4 n5 n6 n7 : String)
    (s : RunState) (x : String)
    (h4 : x ≠ n4) (h5 : x ≠ n5) (h6 : x ≠ n6) (h7 : x ≠ n7) :
    x ∈ (update_EGW_half k' n1 n2 n3 n4 n5 n6 n7 s).spectra_avail ↔
      x ∈ s.spectra_avail :=
  ⟨fun hx => ((update_EGW_half_avail_sub k' n1 n2 n3 n4 n5 n6 n7 s x hx).resolve_right
      (by tauto)),
   update_EGW_half_avail_mono k' n1 n2 n3 n4 n5 n6 n7 s x⟩

/-- Names that the derivation stages may add to `spectra_avail` all lie in
`derivedNames`; the rest of the availability list is the ingested one. -/
theorem derive_avail_iff (s : RunState) (x : String) (hx : x ∉ derivedNames) :
    x ∈ (update_EGW (update_Pi s)).spectra_avail ↔ x ∈ s.spectra_avail := by
  have hx' : x ≠ "Pi" ∧ x ≠ "helPi" ∧ x ≠ "EGW" ∧ x ≠ "OmGW" ∧ x ≠ "EGW_tot" ∧
      x ≠ "OmGW_tot" ∧ x ≠ "helEGW" ∧ x ≠ "helOmGW" ∧ x ≠ "helEGW_tot" ∧
      x ≠ "helOmGW_tot" := by
    simp only [derivedNames, List.mem_cons, List.mem_singleton, not_or] at hx
    tauto
  obtain ⟨e1, e2, e3, e4, e5, e6, e7, e8, e9, e10⟩ := hx'
  simp only [update_EGW]
  rw [update_EGW_half_avail_iff _ _ _ _ _ _ _ _ _ _ e7 e8 e9 e10,
    update_EGW_half_avail_iff _ _ _ _ _ _ _ _ _ _ e3 e4 e5 e6,
    update_Pi_avail_iff _ _ e1 e2]

theorem derive_avail_sub_names (s : RunState) (x : String)
    (hx : x ∈ (update_EGW (update_Pi s)).spectra_avail) :
    x ∈ s.spectra_avail ++ derivedNames := by
  simp only [update_EGW] at hx
  have h1 := update_EGW_half_avail_sub _ _ _ _ _ _ _ _ _ _ hx
  rw [List.mem_append]
  rcases h1 with h1 | h1 | h1 | h1 | h1
  · have h2 := update_EGW_half_avail_sub _ _ _ _ _ _ _ _ _ _ h1
    rcases h2 with h2 | h2 | h2 | h2 | h2
    · have h3 := update_Pi_avail_sub _ _ h2
      rcases h3 with h3 | h3 | h3
      · exact Or.inl h3
      all_goals exact Or.inr (by subst h3; decide)
    all_goals exact Or.inr (by subst h2; decide)
  all_goals exact Or.inr (by subst h1; decide)

/-- Keys protected by `MeanOK` survive the reduction loop of
`compute_mean_max_spectra`. -/
theorem mean_preserve_key (s2 : RunState) (L : List String)
    (hsub : ∀ y ∈ s2.spectra_avail, y ∈ L) (key : String)
    (hkey : ∀ m ∈ L, ∀ w ∈ sufKeys m, w ≠ key) :
    (compute_mean_max_spectra s2).spectra key = s2.spectra key := by
  simp only [compute_mean_max_spectra]
  exact meanFold_preserve _ _ _ _
    (fun m hm w hw he => hkey m (hsub m hm) w hw he.symm)

theorem mean_preserve_mem (s2 : RunState) (L : List String) (hok : MeanOK L)
    (hsub : ∀ y ∈ s2.spectra_avail, y ∈ L) (x : String) (hx : x ∈ L) :
    (compute_mean_max_spectra s2).spectra x = s2.spectra x ∧
    (compute_mean_max_spectra s2).spectra ("t_" ++ x) = s2.spectra ("t_" ++ x) :=
  ⟨mean_preserve_key s2 L hsub x
      (fun m hm w hw => ((hok m hm w hw).1 x hx).1),
   mean_preserve_key s2 L hsub ("t_" ++ x)
      (fun m hm w hw => ((hok m hm w hw).1 x hx).2)⟩

/-- A spectra key written by no pipeline stage reads back, after the whole
`characterize_run`, the value the ingested run held. -/
theorem pipe_spectra_preserved (sq : ℚ → ℚ) (s : RunState) (key : String)
    (hP1 : key ≠ "Pi") (hP2 : key ≠ "t_Pi") (hP3 : key ≠ "helPi") (hP4 : key ≠ "t_helPi")
    (hE1 : key ≠ "EGW") (hE2 : key ≠ "OmGW")
    (hE3 : key ≠ "t_" ++ "EGW") (hE4 : key ≠ "t_" ++ "OmGW")
    (hE5 : key ≠ "EGW_tot") (hE6 : key ≠ "OmGW_tot")
    (hE7 : key ≠ "t_" ++ "EGW_tot") (hE8 : key ≠ "t_" ++ "OmGW_tot")
    (hH1 : key ≠ "helEGW") (hH2 : key ≠ "helOmGW")
    (hH3 : key ≠ "t_" ++ "helEGW") (hH4 : key ≠ "t_" ++ "helOmGW")
    (hH5 : key ≠ "helEGW_tot") (hH6 : key ≠ "helOmGW_tot")
    (hH7 : key ≠ "t_" ++ "helEGW_tot") (hH8 : key ≠ "t_" ++ "helOmGW_tot")
    (hkM : ∀ m ∈ s.spectra_avail ++ derivedNames, ∀ w ∈ sufKeys m, w ≠ key) :
    (characterize_run sq s).spectra key = s.spectra key := by
  rw [characterize_decomp2, (compute_total_shape _).1, (compute_rho_shape _).1]
  show (compute_mean_max_spectra (update_EGW (update_Pi s))).spectra key = s.spectra key
  rw [mean_preserve_key _ (s.spectra_avail ++ derivedNames)
    (derive_avail_sub_names s) key hkM]
  simp only [update_EGW]
  rw [update_EGW_half_frame _ _ _ _ _ _ _ _ _ _ hH1 hH2 hH3 hH4 hH5 hH6 hH7 hH8,
    update_EGW_half_frame _ _ _ _ _ _ _ _ _ _ hE1 hE2 hE3 hE4 hE5 hE6 hE7 hE8,
    update_Pi_frame _ _ hP1 hP2 hP3 hP4]

/-- After `characterize_run` the availability of a non-derived spectrum name
is that of the ingested run. -/
theorem pipe_avail_iff (sq : ℚ → ℚ) (s : RunState) (x : String)
    (hx : x ∉ derivedNames) :
    x ∈ (characterize_run sq s).spectra_avail ↔ x ∈ s.spectra_avail := by
  rw [characterize_decomp2, (compute_total_shape _).2.1, (compute_rho_shape _).2.1]
  exact derive_avail_iff s x hx

/-- After `characterize_run` the availability list of spectra is the one left
by the two derivation stages. -/
theorem pipe_avail_eq (sq : ℚ → ℚ) (s : RunState) :
    (characterize_run sq s).spectra_avail
      = (update_EGW (update_Pi s)).spectra_avail := by
  rw [characterize_decomp2, (compute_total_shape _).2.1, (compute_rho_shape _).2.1]
  rfl

theorem pipe_spectra_eq (sq : ℚ → ℚ) (s : RunState) :
    (characterize_run sq s).spectra
      = (compute_mean_max_spectra (update_EGW (update_Pi s))).spectra := by
  rw [characterize_decomp2, (compute_total_shape _).1, (compute_rho_shape _).1]

/-- One half of `update_EGW` is the identity when every value it would write
is already stored and every name it would append is already listed. -/
theorem update_EGW_half_noop (k' : List ℚ) (n1 n2 n3 n4 n5 n6 n7 : String) (s : RunState)
    (h24 : n2 ≠ n4) (h25 : n2 ≠ n5) (h34 : n3 ≠ n4) (h35 : n3 ≠ n5)
    (hGWs : n1 ∈ s.spectra_avail)
    (hv4 : s.spectra n4 = some (.mat (EGW2CalcV k' (getArr s.spectra ("t_" ++ n1))
        (getMat s.spectra n1)
        (if n2 ∈ s.spectra_avail then some (getMat s.spectra n2) else none)
        (if n3 ∈ s.spectra_avail then some (getMat s.spectra n3) else none))))
    (hv5 : s.spectra n5 = some (.mat (OmGWCalcV k' (getArr s.spectra ("t_" ++ n1))
        (getMat s.spectra n1))))
    (hvt4 : s.spectra ("t_" ++ n4) = some (.arr (getArr s.spectra ("t_" ++ n1))))
    (hvt5 : s.spectra ("t_" ++ n5) = some (.arr (getArr s.spectra ("t_" ++ n1))))
    (hm4 : n4 ∈ s.spectra_avail) (hm5 : n5 ∈ s.spectra_avail)
    (htot : n2 ∈ s.spectra_avail ∨ n3 ∈ s.spectra_avail →
      s.spectra n6 = some (.mat (EGW2CalcV k' (getArr s.spectra ("t_" ++ n1))
          (getMat s.spectra n1)
          (if n2 ∈ s.spectra_avail then some (getMat s.spectra n2) else none)
          (if n3 ∈ s.spectra_avail then some (getMat s.spectra n3) else none))) ∧
      s.spectra n7 = some (.mat (zip2D (fun a b => a * b)
          (meshK (getArr s.spectra ("t_" ++ n1)) k')
          (EGW2CalcV k' (getArr s.spectra ("t_" ++ n1)) (getMat s.spectra n1)
            (if n2 ∈ s.spectra_avail then some (getMat s.spectra n2) else none)
            (if n3 ∈ s.spectra_avail then some (getMat s.spectra n3) else none)))) ∧
      s.spectra ("t_" ++ n6) = some (.arr (getArr s.spectra ("t_" ++ n1))) ∧
      s.spectra ("t_" ++ n7) = some (.arr (getArr s.spectra ("t_" ++ n1))) ∧
      n6 ∈ s.spectra_avail ∧ n7 ∈ s.spectra_avail) :
    update_EGW_half k' n1 n2 n3 n4 n5 n6 n7 s = s := by
  rw [update_EGW_half_eq k' n1 n2 n3 n4 n5 n6 n7 s hGWs h24 h25 h34 h35]
  simp only []
  rw [if_pos hm4, if_pos hm5, dupd_noop _ _ _ hv4, dupd_noop _ _ _ hv5,
    dupd_noop _ _ _ hvt4, dupd_noop _ _ _ hvt5]
  split
  · rename_i hc
    obtain ⟨h6, h7, ht6, ht7, hm6, hm7⟩ := htot hc
    rw [dupd_noop _ _ _ h6, dupd_noop _ _ _ h7, dupd_noop _ _ _ ht6,
      dupd_noop _ _ _ ht7, if_pos hm6, if_pos hm7]
  · rfl

set_option maxHeartbeats 1000000 in
/-- The values stored by the plain half of `update_EGW`, in terms of the
dictionary it read. -/
theorem update_EGW_char_plain (k' : List ℚ) (s : RunState)
    (hGWs : "GWs" ∈ s.spectra_avail) :
    (update_EGW_half k' "GWs" "GWh" "GWm" "EGW" "OmGW" "EGW_tot" "OmGW_tot" s).spectra
        "EGW"
      = some (.mat (EGW2CalcV k' (getArr s.spectra ("t_" ++ "GWs")) (getMat s.spectra "GWs")
          (if "GWh" ∈ s.spectra_avail then some (getMat s.spectra "GWh") else none)
          (if "GWm" ∈ s.spectra_avail then some (getMat s.spectra "GWm") else none))) ∧
    (update_EGW_half k' "GWs" "GWh" "GWm" "EGW" "OmGW" "EGW_tot" "OmGW_tot" s).spectra
        "OmGW"
      = some (.mat (OmGWCalcV k' (getArr s.spectra ("t_" ++ "GWs"))
          (getMat s.spectra "GWs"))) ∧
    (update_EGW_half k' "GWs" "GWh" "GWm" "EGW" "OmGW" "EGW_tot" "OmGW_tot" s).spectra
        ("t_" ++ "EGW")
      = some (.arr (getArr s.spectra ("t_" ++ "GWs"))) ∧
    (update_EGW_half k' "GWs" "GWh" "GWm" "EGW" "OmGW" "EGW_tot" "OmGW_tot" s).spectra
        ("t_" ++ "OmGW")
      = some (.arr (getArr s.spectra ("t_" ++ "GWs"))) ∧
    ("GWh" ∈ s.spectra_avail ∨ "GWm" ∈ s.spectra_avail →
      (update_EGW_half k' "GWs" "GWh" "GWm" "EGW" "OmGW" "EGW_tot" "OmGW_tot" s).spectra
          "EGW_tot"
        = some (.mat (EGW2CalcV k' (getArr s.spectra ("t_" ++ "GWs"))
            (getMat s.spectra "GWs")
            (if "GWh" ∈ s.spectra_avail then some (getMat s.spectra "GWh") else none)
            (if "GWm" ∈ s.spectra_avail then some (getMat s.spectra "GWm") else none))) ∧
      (update_EGW_half k' "GWs" "GWh" "GWm" "EGW" "OmGW" "EGW_tot" "OmGW_tot" s).spectra
          "OmGW_tot"
        = some (.mat (zip2D (fun a b => a * b)
            (meshK (getArr s.spectra ("t_" ++ "GWs")) k')
            (EGW2CalcV k' (getArr s.spectra ("t_" ++ "GWs")) (getMat s.spectra "GWs")
              (if "GWh" ∈ s.spectra_avail then some (getMat s.spectra "GWh") else none)
              (if "GWm" ∈ s.spectra_avail then some (getMat s.spectra "GWm")
                else none)))) ∧
      (update_EGW_half k' "GWs" "GWh" "GWm" "EGW" "OmGW" "EGW_tot" "OmGW_tot" s).spectra
          ("t_" ++ "EGW_tot")
        = some (.arr (getArr s.spectra ("t_" ++ "GWs"))) ∧
      (update_EGW_half k' "GWs" "GWh" "GWm" "EGW" "OmGW" "EGW_tot" "OmGW_tot" s).spectra
          ("t_" ++ "OmGW_tot")
        = some (.arr (getArr s.spectra ("t_" ++ "GWs")))) := by
  rw [update_EGW_half_eq k' "GWs" "GWh" "GWm" "EGW" "OmGW" "EGW_tot" "OmGW_tot" s hGWs
    (by decide) (by decide) (by decide) (by decide)]
  simp only []
  split
  · refine ⟨by simp +decide [dupd], by simp +decide [dupd], by simp +decide [dupd],
      by simp +decide [dupd], fun _ => ⟨by simp +decide [dupd], by simp +decide [dupd],
      by simp +decide [dupd], by simp +decide [dupd]⟩⟩
  · rename_i hc
    refine ⟨by simp +decide [dupd], by simp +decide [dupd], by simp +decide [dupd],
      by simp +decide [dupd], fun hor => absurd hor hc⟩

set_option maxHeartbeats 1000000 in
/-- The values stored by the helical half of `update_EGW`. -/
theorem update_EGW_char_hel (k' : List ℚ) (s : RunState)
    (hGWs : "helGWs" ∈ s.spectra_avail) :
    (update_EGW_half k' "helGWs" "helGWh" "helGWm" "helEGW" "helOmGW" "helEGW_tot"
        "helOmGW_tot" s).spectra "helEGW"
      = some (.mat (EGW2CalcV k' (getArr s.spectra ("t_" ++ "helGWs"))
          (getMat s.spectra "helGWs")
          (if "helGWh" ∈ s.spectra_avail then some (getMat s.spectra "helGWh") else none)
          (if "helGWm" ∈ s.spectra_avail then some (getMat s.spectra "helGWm")
            else none))) ∧
    (update_EGW_half k' "helGWs" "helGWh" "helGWm" "helEGW" "helOmGW" "helEGW_tot"
        "helOmGW_tot" s).spectra "helOmGW"
      = some (.mat (OmGWCalcV k' (getArr s.spectra ("t_" ++ "helGWs"))
          (getMat s.spectra "helGWs"))) ∧
    (update_EGW_half k' "helGWs" "helGWh" "helGWm" "helEGW" "helOmGW" "helEGW_tot"
        "helOmGW_tot" s).spectra ("t_" ++ "helEGW")
      = some (.arr (getArr s.spectra ("t_" ++ "helGWs"))) ∧
    (update_EGW_half k' "helGWs" "helGWh" "helGWm" "helEGW" "helOmGW" "helEGW_tot"
        "helOmGW_tot" s).spectra ("t_" ++ "helOmGW")
      = some (.arr (getArr s.spectra ("t_" ++ "helGWs"))) ∧
    ("helGWh" ∈ s.spectra_avail ∨ "helGWm" ∈ s.spectra_avail →
      (update_EGW_half k' "helGWs" "helGWh" "helGWm" "helEGW" "helOmGW" "helEGW_tot"
          "helOmGW_tot" s).spectra "helEGW_tot"
        = some (.mat (EGW2CalcV k' (getArr s.spectra ("t_" ++ "helGWs"))
            (getMat s.spectra "helGWs")
            (if "helGWh" ∈ s.spectra_avail then some (getMat s.spectra "helGWh")
              else none)
            (if "helGWm" ∈ s.spectra_avail then some (getMat s.spectra "helGWm")
              else none))) ∧
      (update_EGW_half k' "helGWs" "helGWh" "helGWm" "helEGW" "helOmGW" "helEGW_tot"
          "helOmGW_tot" s).spectra "helOmGW_tot"
        = some (.mat (zip2D (fun a b => a * b)
            (meshK (getArr s.spectra ("t_" ++ "helGWs")) k')
            (EGW2CalcV k' (getArr s.spectra ("t_" ++ "helGWs"))
              (getMat s.spectra "helGWs")
              (if "helGWh" ∈ s.spectra_avail then some (getMat s.spectra "helGWh")
                else none)
              (if "helGWm" ∈ s.spectra_avail then some (getMat s.spectra "helGWm")
                else none)))) ∧
      (update_EGW_half k' "helGWs" "helGWh" "helGWm" "helEGW" "helOmGW" "helEGW_tot"
          "helOmGW_tot" s).spectra ("t_" ++ "helEGW_tot")
        = some (.arr (getArr s.spectra ("t_" ++ "helGWs"))) ∧
      (update_EGW_half k' "helGWs" "helGWh" "helGWm" "helEGW" "helOmGW" "helEGW_tot"
          "helOmGW_tot" s).spectra ("t_" ++ "helOmGW_tot")
        = some (.arr (getArr s.spectra ("t_" ++ "helGWs")))) := by
  rw [update_EGW_half_eq k' "helGWs" "helGWh" "helGWm" "helEGW" "helOmGW" "helEGW_tot"
    "helOmGW_tot" s hGWs (by decide) (by decide) (by decide) (by decide)]
  simp only []
  split
  · refine ⟨by simp +decide [dupd], by simp +decide [dupd], by simp +decide [dupd],
      by simp +decide [dupd], fun _ => ⟨by simp +decide [dupd], by simp +decide [dupd],
      by simp +decide [dupd], by simp +decide [dupd]⟩⟩
  · rename_i hc
    refine ⟨by simp +decide [dupd], by simp +decide [dupd], by simp +decide [dupd],
      by simp +decide [dupd], fun hor => absurd hor hc⟩

theorem update_EGW_frame_all (s : RunState) (key : String)
    (hkey : key ∉ ["EGW", "OmGW", "t_" ++ "EGW", "t_" ++ "OmGW", "EGW_tot", "OmGW_tot",
      "t_" ++ "EGW_tot", "t_" ++ "OmGW_tot", "helEGW", "helOmGW", "t_" ++ "helEGW",
      "t_" ++ "helOmGW", "helEGW_tot", "helOmGW_tot", "t_" ++ "helEGW_tot",
      "t_" ++ "helOmGW_tot"]) :
    (update_EGW s).spectra key = s.spectra key := by
  simp only [List.mem_cons, List.mem_singleton, not_or] at hkey
  obtain ⟨e1, e2, e3, e4, e5, e6, e7, e8, e9, e10, e11, e12, e13, e14, e15, e16, -⟩ := hkey
  simp only [update_EGW]
  rw [update_EGW_half_frame _ _ _ _ _ _ _ _ _ _ e9 e10 e11 e12 e13 e14 e15 e16,
    update_EGW_half_frame _ _ _ _ _ _ _ _ _ _ e1 e2 e3 e4 e5 e6 e7 e8]

/-- The first derivation stage `update_Pi` is the identity on the result of
`characterize_run`: the pipeline already stored exactly the values the stage
would recompute. -/
theorem pipe_pi_fixed (sq : ℚ → ℚ) (s : RunState) (h : PipeNamesOK s.spectra_avail) :
    update_Pi (characterize_run sq s) = characterize_run sq s := by
  obtain ⟨hok, hk⟩ := h
  by_cases hStr : "Str" ∈ (characterize_run sq s).spectra_avail
  · have hStr_s : "Str" ∈ s.spectra_avail := (pipe_avail_iff sq s "Str" (by decide)).1 hStr
    have hsub := derive_avail_sub_names s
    have hStrL : "Str" ∈ s.spectra_avail ++ derivedNames :=
      List.mem_append.2 (Or.inl hStr_s)
    have hPiL : "Pi" ∈ s.spectra_avail ++ derivedNames :=
      List.mem_append.2 (Or.inr (by decide))
    have hKk : (characterize_run sq s).spectra "k" = s.spectra "k" :=
      pipe_spectra_preserved sq s "k" (by decide) (by decide) (by decide) (by decide) (by decide) (by decide) (by decide) (by decide) (by decide) (by decide) (by decide) (by decide) (by decide) (by decide) (by decide) (by decide) (by decide) (by decide) (by decide) (by decide) hk
    have hKt : (characterize_run sq s).spectra "t_Str" = s.spectra "t_Str" := by
      have e : ("t_" ++ "Str" : String) = "t_Str" := by decide
      have h2 := pipe_spectra_preserved sq s ("t_" ++ "Str") (by decide) (by decide)
        (by decide) (by decide) (by decide) (by decide) (by decide) (by decide)
        (by decide) (by decide) (by decide) (by decide) (by decide) (by decide)
        (by decide) (by decide) (by decide) (by decide) (by decide) (by decide)
        (fun m hm w hw => ((hok m hm w hw).1 "Str" hStrL).2)
      rwa [e] at h2
    have hKS : (characterize_run sq s).spectra "Str" = s.spectra "Str" :=
      pipe_spectra_preserved sq s "Str" (by decide) (by decide) (by decide) (by decide) (by decide) (by decide) (by decide) (by decide) (by decide) (by decide) (by decide) (by decide) (by decide) (by decide) (by decide) (by decide) (by decide) (by decide) (by decide) (by decide)
        (fun m hm w hw => ((hok m hm w hw).1 "Str" hStrL).1)
    have hch := update_Pi_char s hStr_s
    have hPi_keep : (characterize_run sq s).spectra "Pi"
        = (update_Pi s).spectra "Pi" := by
      rw [pipe_spectra_eq, mean_preserve_key _ _ hsub "Pi"
        (fun m hm w hw => ((hok m hm w hw).1 "Pi" hPiL).1)]
      exact update_EGW_frame_all _ "Pi" (by decide)
    have htPi_keep : (characterize_run sq s).spectra "t_Pi"
        = (update_Pi s).spectra "t_Pi" := by
      have e : ("t_" ++ "Pi" : String) = "t_Pi" := by decide
      have h2 : (characterize_run sq s).spectra ("t_" ++ "Pi")
          = (update_Pi s).spectra ("t_" ++ "Pi") := by
        rw [pipe_spectra_eq, mean_preserve_key _ _ hsub ("t_" ++ "Pi")
          (fun m hm w hw => ((hok m hm w hw).1 "Pi" hPiL).2)]
        exact update_EGW_frame_all _ ("t_" ++ "Pi") (by decide)
      rwa [e] at h2
    refine update_Pi_noop _ ?_ ?_ ?_ ?_
    · rw [hPi_keep, hch.1, getArr_congr hKk, getArr_congr hKt, getMat_congr hKS]
    · rw [htPi_keep, hch.2, getArr_congr hKt]
    · rw [pipe_avail_eq]
      simp only [update_EGW]
      exact update_EGW_half_avail_mono _ _ _ _ _ _ _ _ _ _
        (update_EGW_half_avail_mono _ _ _ _ _ _ _ _ _ _ (update_Pi_has_Pi s hStr_s))
    · intro hh
      have hh_s : "helStr" ∈ s.spectra_avail :=
        (pipe_avail_iff sq s "helStr" (by decide)).1 hh
      have hHL : "helStr" ∈ s.spectra_avail ++ derivedNames :=
        List.mem_append.2 (Or.inl hh_s)
      have hhPiL : "helPi" ∈ s.spectra_avail ++ derivedNames :=
        List.mem_append.2 (Or.inr (by decide))
      have hchh := update_Pi_char_hel s hStr_s hh_s
      have hKth : (characterize_run sq s).spectra "t_helStr"
          = s.spectra "t_helStr" := by
        have e : ("t_" ++ "helStr" : String) = "t_helStr" := by decide
        have h2 := pipe_spectra_preserved sq s ("t_" ++ "helStr") (by decide) (by decide)
          (by decide) (by decide) (by decide) (by decide) (by decide) (by decide)
          (by decide) (by decide) (by decide) (by decide) (by decide) (by decide)
          (by decide) (by decide) (by decide) (by decide) (by decide) (by decide)
          (fun m hm w hw => ((hok m hm w hw).1 "helStr" hHL).2)
        rwa [e] at h2
      have hKSh : (characterize_run sq s).spectra "helStr" = s.spectra "helStr" :=
        pipe_spectra_preserved sq s "helStr" (by decide) (by decide) (by decide)
          (by decide) (by decide) (by decide) (by decide) (by decide) (by decide)
          (by decide) (by decide) (by decide) (by decide) (by decide) (by decide)
          (by decide) (by decide) (by decide) (by decide) (by decide)
          (fun m hm w hw => ((hok m hm w hw).1 "helStr" hHL).1)
      have hhPi_keep : (characterize_run sq s).spectra "helPi"
          = (update_Pi s).spectra "helPi" := by
        rw [pipe_spectra_eq, mean_preserve_key _ _ hsub "helPi"
          (fun m hm w hw => ((hok m hm w hw).1 "helPi" hhPiL).1)]
        exact update_EGW_frame_all _ "helPi" (by decide)
      have hthPi_keep : (characterize_run sq s).spectra "t_helPi"
          = (update_Pi s).spectra "t_helPi" := by
        have e : ("t_" ++ "helPi" : String) = "t_helPi" := by decide
        have h2 : (characterize_run sq s).spectra ("t_" ++ "helPi")
            = (update_Pi s).spectra ("t_" ++ "helPi") := by
          rw [pipe_spectra_eq, mean_preserve_key _ _ hsub ("t_" ++ "helPi")
            (fun m hm w hw => ((hok m hm w hw).1 "helPi" hhPiL).2)]
          exact update_EGW_frame_all _ ("t_" ++ "helPi") (by decide)
        rwa [e] at h2
      refine ⟨?_, ?_, ?_⟩
      · rw [hhPi_keep, hchh.1, getArr_congr hKk, getArr_congr hKth, getMat_congr hKSh]
      · rw [hthPi_keep, hchh.2, getArr_congr hKth]
      · rw [pipe_avail_eq]
        simp only [update_EGW]
        exact update_EGW_half_avail_mono _ _ _ _ _ _ _ _ _ _
          (update_EGW_half_avail_mono _ _ _ _ _ _ _ _ _ _
            (update_Pi_has_helPi s hStr_s hh_s))
  · simp only [update_Pi]
    rw [if_neg hStr]

/-- The second derivation stage `update_EGW` is the identity on the result of
`characterize_run`. -/
theorem pipe_egw_fixed (sq : ℚ → ℚ) (s : RunState) (h : PipeNamesOK s.spectra_avail) :
    update_EGW (characterize_run sq s) = characterize_run sq s := by
  obtain ⟨hok, hk⟩ := h
  have hsub := derive_avail_sub_names s
  have hKk : (characterize_run sq s).spectra "k" = s.spectra "k" :=
    pipe_spectra_preserved sq s "k" (by decide) (by decide) (by decide) (by decide) (by decide) (by decide) (by decide) (by decide) (by decide) (by decide) (by decide) (by decide) (by decide) (by decide) (by decide) (by decide) (by decide) (by decide) (by decide) (by decide) hk
  have ha1k : (update_Pi s).spectra "k" = s.spectra "k" :=
    update_Pi_frame s _ (by decide) (by decide) (by decide) (by decide)
  have hkk : getArr (update_Pi s).spectra "k" = getArr (characterize_run sq s).spectra "k" :=
    (getArr_congr ha1k).trans (getArr_congr hKk).symm
  have h1half : update_EGW_half (getArr (characterize_run sq s).spectra "k") "GWs" "GWh" "GWm" "EGW" "OmGW" "EGW_tot" "OmGW_tot"
      (characterize_run sq s) = characterize_run sq s := by
    by_cases hg : "GWs" ∈ (characterize_run sq s).spectra_avail
    · have hg_s : "GWs" ∈ s.spectra_avail := (pipe_avail_iff sq s "GWs" (by decide)).1 hg
      have hg_a1 : "GWs" ∈ (update_Pi s).spectra_avail := update_Pi_avail_mono s "GWs" hg_s
      have hGL : "GWs" ∈ s.spectra_avail ++ derivedNames := List.mem_append.2 (Or.inl hg_s)
      have hL4 : "EGW" ∈ s.spectra_avail ++ derivedNames := List.mem_append.2 (Or.inr (by decide))
      have hL5 : "OmGW" ∈ s.spectra_avail ++ derivedNames := List.mem_append.2 (Or.inr (by decide))
      have hL6 : "EGW_tot" ∈ s.spectra_avail ++ derivedNames := List.mem_append.2 (Or.inr (by decide))
      have hL7 : "OmGW_tot" ∈ s.spectra_avail ++ derivedNames := List.mem_append.2 (Or.inr (by decide))
      have hchar := update_EGW_char_plain (getArr (update_Pi s).spectra "k") (update_Pi s) hg_a1
      have hTt : (characterize_run sq s).spectra ("t_" ++ "GWs") = s.spectra ("t_" ++ "GWs") :=
        pipe_spectra_preserved sq s ("t_" ++ "GWs") (by decide) (by decide) (by decide) (by decide) (by decide) (by decide) (by decide) (by decide) (by decide) (by decide) (by decide) (by decide) (by decide) (by decide) (by decide) (by decide) (by decide) (by decide) (by decide) (by decide)
          (fun m hm w hw => ((hok m hm w hw).1 "GWs" hGL).2)
      have ha1t : (update_Pi s).spectra ("t_" ++ "GWs") = s.spectra ("t_" ++ "GWs") :=
        update_Pi_frame s _ (by decide) (by decide) (by decide) (by decide)
      have htt : getArr (update_Pi s).spectra ("t_" ++ "GWs")
          = getArr (characterize_run sq s).spectra ("t_" ++ "GWs") :=
        (getArr_congr ha1t).trans (getArr_congr hTt).symm
      have hTs : (characterize_run sq s).spectra "GWs" = s.spectra "GWs" :=
        pipe_spectra_preserved sq s "GWs" (by decide) (by decide) (by decide) (by decide) (by decide) (by decide) (by decide) (by decide) (by decide) (by decide) (by decide) (by decide) (by decide) (by decide) (by decide) (by decide) (by decide) (by decide) (by decide) (by decide)
          (fun m hm w hw => ((hok m hm w hw).1 "GWs" hGL).1)
      have ha1s : (update_Pi s).spectra "GWs" = s.spectra "GWs" :=
        update_Pi_frame s _ (by decide) (by decide) (by decide) (by decide)
      have hss : getMat (update_Pi s).spectra "GWs" = getMat (characterize_run sq s).spectra "GWs" :=
        (getMat_congr ha1s).trans (getMat_congr hTs).symm
      have ho2 : (if "GWh" ∈ (update_Pi s).spectra_avail
            then some (getMat (update_Pi s).spectra "GWh") else none)
          = (if "GWh" ∈ (characterize_run sq s).spectra_avail
            then some (getMat (characterize_run sq s).spectra "GWh") else none) := by
        by_cases hgw : "GWh" ∈ s.spectra_avail
        · rw [if_pos ((update_Pi_avail_iff s "GWh" (by decide) (by decide)).2 hgw),
            if_pos ((pipe_avail_iff sq s "GWh" (by decide)).2 hgw)]
          have h1 : (update_Pi s).spectra "GWh" = s.spectra "GWh" :=
            update_Pi_frame s _ (by decide) (by decide) (by decide) (by decide)
          have h2 : (characterize_run sq s).spectra "GWh" = s.spectra "GWh" :=
            pipe_spectra_preserved sq s "GWh" (by decide) (by decide) (by decide) (by decide) (by decide) (by decide) (by decide) (by decide) (by decide) (by decide) (by decide) (by decide) (by decide) (by decide) (by decide) (by decide) (by decide) (by decide) (by decide) (by decide)
              (fun m hm w hw => ((hok m hm w hw).1 "GWh" (List.mem_append.2 (Or.inl hgw))).1)
          rw [getMat_congr h1, getMat_congr h2]
        · rw [if_neg (fun hc => hgw ((update_Pi_avail_iff s "GWh" (by decide) (by decide)).1 hc)),
            if_neg (fun hc => hgw ((pipe_avail_iff sq s "GWh" (by decide)).1 hc))]
      have ho3 : (if "GWm" ∈ (update_Pi s).spectra_avail
            then some (getMat (update_Pi s).spectra "GWm") else none)
          = (if "GWm" ∈ (characterize_run sq s).spectra_avail
            then some (getMat (characterize_run sq s).spectra "GWm") else none) := by
        by_cases hgw : "GWm" ∈ s.spectra_avail
        · rw [if_pos ((update_Pi_avail_iff s "GWm" (by decide) (by decide)).2 hgw),
            if_pos ((pipe_avail_iff sq s "GWm" (by decide)).2 hgw)]
          have h1 : (update_Pi s).spectra "GWm" = s.spectra "GWm" :=
            update_Pi_frame s _ (by decide) (by decide) (by decide) (by decide)
          have h2 : (characterize_run sq s).spectra "GWm" = s.spectra "GWm" :=
            pipe_spectra_preserved sq s "GWm" (by decide) (by decide) (by decide) (by decide) (by decide) (by decide) (by decide) (by decide) (by decide) (by decide) (by decide) (by decide) (by decide) (by decide) (by decide) (by decide) (by decide) (by decide) (by decide) (by decide)
              (fun m hm w hw => ((hok m hm w hw).1 "GWm" (List.mem_append.2 (Or.inl hgw))).1)
          rw [getMat_congr h1, getMat_congr h2]
        · rw [if_neg (fun hc => hgw ((update_Pi_avail_iff s "GWm" (by decide) (by decide)).1 hc)),
            if_neg (fun hc => hgw ((pipe_avail_iff sq s "GWm" (by decide)).1 hc))]
      have hE1 : (characterize_run sq s).spectra ("EGW") = (update_EGW_half (getArr (update_Pi s).spectra "k") "GWs" "GWh" "GWm" "EGW" "OmGW" "EGW_tot" "OmGW_tot" (update_Pi s)).spectra ("EGW") := by
        rw [pipe_spectra_eq, (mean_preserve_mem _ _ hok hsub "EGW" hL4).1]
        show (update_EGW_half (getArr (update_Pi s).spectra "k") "helGWs" "helGWh" "helGWm" "helEGW" "helOmGW"
            "helEGW_tot" "helOmGW_tot" (update_EGW_half (getArr (update_Pi s).spectra "k") "GWs" "GWh" "GWm" "EGW" "OmGW" "EGW_tot" "OmGW_tot" (update_Pi s))).spectra ("EGW") = _
        exact update_EGW_half_frame _ _ _ _ _ _ _ _ _ _ (by decide) (by decide)
          (by decide) (by decide) (by decide) (by decide) (by decide) (by decide)
      have hE2 : (characterize_run sq s).spectra ("OmGW") = (update_EGW_half (getArr (update_Pi s).spectra "k") "GWs" "GWh" "GWm" "EGW" "OmGW" "EGW_tot" "OmGW_tot" (update_Pi s)).spectra ("OmGW") := by
        rw [pipe_spectra_eq, (mean_preserve_mem _ _ hok hsub "OmGW" hL5).1]
        show (update_EGW_half (getArr (update_Pi s).spectra "k") "helGWs" "helGWh" "helGWm" "helEGW" "helOmGW"
            "helEGW_tot" "helOmGW_tot" (update_EGW_half (getArr (update_Pi s).spectra "k") "GWs" "GWh" "GWm" "EGW" "OmGW" "EGW_tot" "OmGW_tot" (update_Pi s))).spectra ("OmGW") = _
        exact update_EGW_half_frame _ _ _ _ _ _ _ _ _ _ (by decide) (by decide)
          (by decide) (by decide) (by decide) (by decide) (by decide) (by decide)
      have hE3 : (characterize_run sq s).spectra ("t_" ++ "EGW") = (update_EGW_half (getArr (update_Pi s).spectra "k") "GWs" "GWh" "GWm" "EGW" "OmGW" "EGW_tot" "OmGW_tot" (update_Pi s)).spectra ("t_" ++ "EGW") := by
        rw [pipe_spectra_eq, (mean_preserve_mem _ _ hok hsub "EGW" hL4).2]
        show (update_EGW_half (getArr (update_Pi s).spectra "k") "helGWs" "helGWh" "helGWm" "helEGW" "helOmGW"
            "helEGW_tot" "helOmGW_tot" (update_EGW_half (getArr (update_Pi s).spectra "k") "GWs" "GWh" "GWm" "EGW" "OmGW" "EGW_tot" "OmGW_tot" (update_Pi s))).spectra ("t_" ++ "EGW") = _
        exact update_EGW_half_frame _ _ _ _ _ _ _ _ _ _ (by decide) (by decide)
          (by decide) (by decide) (by decide) (by decide) (by decide) (by decide)
      have hE4 : (characterize_run sq s).spectra ("t_" ++ "OmGW") = (update_EGW_half (getArr (update_Pi s).spectra "k") "GWs" "GWh" "GWm" "EGW" "OmGW" "EGW_tot" "OmGW_tot" (update_Pi s)).spectra ("t_" ++ "OmGW") := by
        rw [pipe_spectra_eq, (mean_preserve_mem _ _ hok hsub "OmGW" hL5).2]
        show (update_EGW_half (getArr (update_Pi s).spectra "k") "helGWs" "helGWh" "helGWm" "helEGW" "helOmGW"
            "helEGW_tot" "helOmGW_tot" (update_EGW_half (getArr (update_Pi s).spectra "k") "GWs" "GWh" "GWm" "EGW" "OmGW" "EGW_tot" "OmGW_tot" (update_Pi s))).spectra ("t_" ++ "OmGW") = _
        exact update_EGW_half_frame _ _ _ _ _ _ _ _ _ _ (by decide) (by decide)
          (by decide) (by decide) (by decide) (by decide) (by decide) (by decide)
      have hE5 : (characterize_run sq s).spectra ("EGW_tot") = (update_EGW_half (getArr (update_Pi s).spectra "k") "GWs" "GWh" "GWm" "EGW" "OmGW" "EGW_tot" "OmGW_tot" (update_Pi s)).spectra ("EGW_tot") := by
        rw [pipe_spectra_eq, (mean_preserve_mem _ _ hok hsub "EGW_tot" hL6).1]
        show (update_EGW_half (getArr (update_Pi s).spectra "k") "helGWs" "helGWh" "helGWm" "helEGW" "helOmGW"
            "helEGW_tot" "helOmGW_tot" (update_EGW_half (getArr (update_Pi s).spectra "k") "GWs" "GWh" "GWm" "EGW" "OmGW" "EGW_tot" "OmGW_tot" (update_Pi s))).spectra ("EGW_tot") = _
        exact update_EGW_half_frame _ _ _ _ _ _ _ _ _ _ (by decide) (by decide)
          (by decide) (by decide) (by decide) (by decide) (by decide) (by decide)
      have hE6 : (characterize_run sq s).spectra ("OmGW_tot") = (update_EGW_half (getArr (update_Pi s).spectra "k") "GWs" "GWh" "GWm" "EGW" "OmGW" "EGW_tot" "OmGW_tot" (update_Pi s)).spectra ("OmGW_tot") := by
        rw [pipe_spectra_eq, (mean_preserve_mem _ _ hok hsub "OmGW_tot" hL7).1]
        show (update_EGW_half (getArr (update_Pi s).spectra "k") "helGWs" "helGWh" "helGWm" "helEGW" "helOmGW"
            "helEGW_tot" "helOmGW_tot" (update_EGW_half (getArr (update_Pi s).spectra "k") "GWs" "GWh" "GWm" "EGW" "OmGW" "EGW_tot" "OmGW_tot" (update_Pi s))).spectra ("OmGW_tot") = _
        exact update_EGW_half_frame _ _ _ _ _ _ _ _ _ _ (by decide) (by decide)
          (by decide) (by decide) (by decide) (by decide) (by decide) (by decide)
      have hE7 : (characterize_run sq s).spectra ("t_" ++ "EGW_tot") = (update_EGW_half (getArr (update_Pi s).spectra "k") "GWs" "GWh" "GWm" "EGW" "OmGW" "EGW_tot" "OmGW_tot" (update_Pi s)).spectra ("t_" ++ "EGW_tot") := by
        rw [pipe_spectra_eq, (mean_preserve_mem _ _ hok hsub "EGW_tot" hL6).2]
        show (update_EGW_half (getArr (update_Pi s).spectra "k") "helGWs" "helGWh" "helGWm" "helEGW" "helOmGW"
            "helEGW_tot" "helOmGW_tot" (update_EGW_half (getArr (update_Pi s).spectra "k") "GWs" "GWh" "GWm" "EGW" "OmGW" "EGW_tot" "OmGW_tot" (update_Pi s))).spectra ("t_" ++ "EGW_tot") = _
        exact update_EGW_half_frame _ _ _ _ _ _ _ _ _ _ (by decide) (by decide)
          (by decide) (by decide) (by decide) (by decide) (by decide) (by decide)
      have hE8 : (characterize_run sq s).spectra ("t_" ++ "OmGW_tot") = (update_EGW_half (getArr (update_Pi s).spectra "k") "GWs" "GWh" "GWm" "EGW" "OmGW" "EGW_tot" "OmGW_tot" (update_Pi s)).spectra ("t_" ++ "OmGW_tot") := by
        rw [pipe_spectra_eq, (mean_preserve_mem _ _ hok hsub "OmGW_tot" hL7).2]
        show (update_EGW_half (getArr (update_Pi s).spectra "k") "helGWs" "helGWh" "helGWm" "helEGW" "helOmGW"
            "helEGW_tot" "helOmGW_tot" (update_EGW_half (getArr (update_Pi s).spectra "k") "GWs" "GWh" "GWm" "EGW" "OmGW" "EGW_tot" "OmGW_tot" (update_Pi s))).spectra ("t_" ++ "OmGW_tot") = _
        exact update_EGW_half_frame _ _ _ _ _ _ _ _ _ _ (by decide) (by decide)
          (by decide) (by decide) (by decide) (by decide) (by decide) (by decide)
      refine update_EGW_half_noop _ _ _ _ _ _ _ _ _ (by decide) (by decide) (by decide)
        (by decide) hg ?_ ?_ ?_ ?_ ?_ ?_ ?_
      · rw [hE1, hchar.1, hkk, htt, hss, ho2, ho3]
      · rw [hE2, hchar.2.1, hkk, htt, hss]
      · rw [hE3, hchar.2.2.1, htt]
      · rw [hE4, hchar.2.2.2.1, htt]
      · rw [pipe_avail_eq]
        show "EGW" ∈ (update_EGW_half (getArr (update_Pi s).spectra "k") "helGWs" "helGWh" "helGWm" "helEGW" "helOmGW"
            "helEGW_tot" "helOmGW_tot" (update_EGW_half (getArr (update_Pi s).spectra "k") "GWs" "GWh" "GWm" "EGW" "OmGW" "EGW_tot" "OmGW_tot" (update_Pi s))).spectra_avail
        exact update_EGW_half_avail_mono _ _ _ _ _ _ _ _ _ _
          ((update_EGW_half_has (getArr (update_Pi s).spectra "k") "GWs" "GWh" "GWm" "EGW" "OmGW" "EGW_tot" "OmGW_tot"
            (update_Pi s) hg_a1).1)
      · rw [pipe_avail_eq]
        show "OmGW" ∈ (update_EGW_half (getArr (update_Pi s).spectra "k") "helGWs" "helGWh" "helGWm" "helEGW" "helOmGW"
            "helEGW_tot" "helOmGW_tot" (update_EGW_half (getArr (update_Pi s).spectra "k") "GWs" "GWh" "GWm" "EGW" "OmGW" "EGW_tot" "OmGW_tot" (update_Pi s))).spectra_avail
        exact update_EGW_half_avail_mono _ _ _ _ _ _ _ _ _ _
          ((update_EGW_half_has (getArr (update_Pi s).spectra "k") "GWs" "GWh" "GWm" "EGW" "OmGW" "EGW_tot" "OmGW_tot"
            (update_Pi s) hg_a1).2)
      · intro hc
        have hca1 : "GWh" ∈ (update_Pi s).spectra_avail ∨ "GWm" ∈ (update_Pi s).spectra_avail := by
          rcases hc with hc | hc
          · exact Or.inl (update_Pi_avail_mono s "GWh"
              ((pipe_avail_iff sq s "GWh" (by decide)).1 hc))
          · exact Or.inr (update_Pi_avail_mono s "GWm"
              ((pipe_avail_iff sq s "GWm" (by decide)).1 hc))
        have hct := hchar.2.2.2.2 hca1
        have hmem := update_EGW_half_has_tot (getArr (update_Pi s).spectra "k") "GWs" "GWh" "GWm" "EGW" "OmGW"
          "EGW_tot" "OmGW_tot" (update_Pi s) hg_a1 hca1
        refine ⟨?_, ?_, ?_, ?_, ?_, ?_⟩
        · rw [hE5, hct.1, hkk, htt, hss, ho2, ho3]
        · rw [hE6, hct.2.1, hkk, htt, hss, ho2, ho3]
        · rw [hE7, hct.2.2.1, htt]
        · rw [hE8, hct.2.2.2, htt]
        · rw [pipe_avail_eq]
          show "EGW_tot" ∈ (update_EGW_half (getArr (update_Pi s).spectra "k") "helGWs" "helGWh" "helGWm" "helEGW"
              "helOmGW" "helEGW_tot" "helOmGW_tot" (update_EGW_half (getArr (update_Pi s).spectra "k") "GWs" "GWh" "GWm" "EGW" "OmGW" "EGW_tot" "OmGW_tot" (update_Pi s))).spectra_avail
          exact update_EGW_half_avail_mono _ _ _ _ _ _ _ _ _ _ hmem.1
        · rw [pipe_avail_eq]
          show "OmGW_tot" ∈ (update_EGW_half (getArr (update_Pi s).spectra "k") "helGWs" "helGWh" "helGWm" "helEGW"
              "helOmGW" "helEGW_tot" "helOmGW_tot" (update_EGW_half (getArr (update_Pi s).spectra "k") "GWs" "GWh" "GWm" "EGW" "OmGW" "EGW_tot" "OmGW_tot" (update_Pi s))).spectra_avail
          exact update_EGW_half_avail_mono _ _ _ _ _ _ _ _ _ _ hmem.2
    · exact update_EGW_half_not _ _ _ _ _ _ _ _ _ hg
  have h2half : update_EGW_half (getArr (characterize_run sq s).spectra "k") "helGWs" "helGWh" "helGWm" "helEGW" "helOmGW"
      "helEGW_tot" "helOmGW_tot" (characterize_run sq s) = characterize_run sq s := by
    by_cases hg : "helGWs" ∈ (characterize_run sq s).spectra_avail
    · have hg_s : "helGWs" ∈ s.spectra_avail :=
        (pipe_avail_iff sq s "helGWs" (by decide)).1 hg
      have hg_a1 : "helGWs" ∈ (update_Pi s).spectra_avail := update_Pi_avail_mono s "helGWs" hg_s
      have hg_X : "helGWs" ∈ (update_EGW_half (getArr (update_Pi s).spectra "k") "GWs" "GWh" "GWm" "EGW" "OmGW" "EGW_tot" "OmGW_tot" (update_Pi s)).spectra_avail :=
        (update_EGW_half_avail_iff (getArr (update_Pi s).spectra "k") "GWs" "GWh" "GWm" "EGW" "OmGW" "EGW_tot"
          "OmGW_tot" (update_Pi s) "helGWs" (by decide) (by decide) (by decide) (by decide)).2 hg_a1
      have hGL : "helGWs" ∈ s.spectra_avail ++ derivedNames :=
        List.mem_append.2 (Or.inl hg_s)
      have hL4 : "helEGW" ∈ s.spectra_avail ++ derivedNames :=
        List.mem_append.2 (Or.inr (by decide))
      have hL5 : "helOmGW" ∈ s.spectra_avail ++ derivedNames :=
        List.mem_append.2 (Or.inr (by decide))
      have hL6 : "helEGW_tot" ∈ s.spectra_avail ++ derivedNames :=
        List.mem_append.2 (Or.inr (by decide))
      have hL7 : "helOmGW_tot" ∈ s.spectra_avail ++ derivedNames :=
        List.mem_append.2 (Or.inr (by decide))
      have hchar := update_EGW_char_hel (getArr (update_Pi s).spectra "k") (update_EGW_half (getArr (update_Pi s).spectra "k") "GWs" "GWh" "GWm" "EGW" "OmGW" "EGW_tot" "OmGW_tot" (update_Pi s)) hg_X
      have hTt : (characterize_run sq s).spectra ("t_" ++ "helGWs") = s.spectra ("t_" ++ "helGWs") :=
        pipe_spectra_preserved sq s ("t_" ++ "helGWs") (by decide) (by decide) (by decide) (by decide) (by decide) (by decide) (by decide) (by decide) (by decide) (by decide) (by decide) (by decide) (by decide) (by decide) (by decide) (by decide) (by decide) (by decide) (by decide) (by decide)
          (fun m hm w hw => ((hok m hm w hw).1 "helGWs" hGL).2)
      have ha1t : (update_Pi s).spectra ("t_" ++ "helGWs") = s.spectra ("t_" ++ "helGWs") :=
        update_Pi_frame s _ (by decide) (by decide) (by decide) (by decide)
      have hXt : (update_EGW_half (getArr (update_Pi s).spectra "k") "GWs" "GWh" "GWm" "EGW" "OmGW" "EGW_tot" "OmGW_tot" (update_Pi s)).spectra ("t_" ++ "helGWs") = (update_Pi s).spectra ("t_" ++ "helGWs") :=
        update_EGW_half_frame _ _ _ _ _ _ _ _ _ _ (by decide) (by decide) (by decide)
          (by decide) (by decide) (by decide) (by decide) (by decide)
      have htt : getArr (update_EGW_half (getArr (update_Pi s).spectra "k") "GWs" "GWh" "GWm" "EGW" "OmGW" "EGW_tot" "OmGW_tot" (update_Pi s)).spectra ("t_" ++ "helGWs")
          = getArr (characterize_run sq s).spectra ("t_" ++ "helGWs") :=
        (getArr_congr (hXt.trans ha1t)).trans (getArr_congr hTt).symm
      have hTs : (characterize_run sq s).spectra "helGWs" = s.spectra "helGWs" :=
        pipe_spectra_preserved sq s "helGWs" (by decide) (by decide) (by decide) (by decide) (by decide) (by decide) (by decide) (by decide) (by decide) (by decide) (by decide) (by decide) (by decide) (by decide) (by decide) (by decide) (by decide) (by decide) (by decide) (by decide)
          (fun m hm w hw => ((hok m hm w hw).1 "helGWs" hGL).1)
      have ha1s : (update_Pi s).spectra "helGWs" = s.spectra "helGWs" :=
        update_Pi_frame s _ (by decide) (by decide) (by decide) (by decide)
      have hXs : (update_EGW_half (getArr (update_Pi s).spectra "k") "GWs" "GWh" "GWm" "EGW" "OmGW" "EGW_tot" "OmGW_tot" (update_Pi s)).spectra "helGWs" = (update_Pi s).spectra "helGWs" :=
        update_EGW_half_frame _ _ _ _ _ _ _ _ _ _ (by decide) (by decide) (by decide)
          (by decide) (by decide) (by decide) (by decide) (by decide)
      have hss : getMat (update_EGW_half (getArr (update_Pi s).spectra "k") "GWs" "GWh" "GWm" "EGW" "OmGW" "EGW_tot" "OmGW_tot" (update_Pi s)).spectra "helGWs" = getMat (characterize_run sq s).spectra "helGWs" :=
        (getMat_congr (hXs.trans ha1s)).trans (getMat_congr hTs).symm
      have ho2 : (if "helGWh" ∈ (update_EGW_half (getArr (update_Pi s).spectra "k") "GWs" "GWh" "GWm" "EGW" "OmGW" "EGW_tot" "OmGW_tot" (update_Pi s)).spectra_avail
            then some (getMat (update_EGW_half (getArr (update_Pi s).spectra "k") "GWs" "GWh" "GWm" "EGW" "OmGW" "EGW_tot" "OmGW_tot" (update_Pi s)).spectra "helGWh") else none)
          = (if "helGWh" ∈ (characterize_run sq s).spectra_avail
            then some (getMat (characterize_run sq s).spectra "helGWh") else none) := by
        by_cases hgw : "helGWh" ∈ s.spectra_avail
        · rw [if_pos ((update_EGW_half_avail_iff (getArr (update_Pi s).spectra "k") "GWs" "GWh" "GWm" "EGW" "OmGW"
              "EGW_tot" "OmGW_tot" (update_Pi s) "helGWh" (by decide) (by decide) (by decide)
              (by decide)).2 (update_Pi_avail_mono s "helGWh" hgw)),
            if_pos ((pipe_avail_iff sq s "helGWh" (by decide)).2 hgw)]
          have h1 : (update_Pi s).spectra "helGWh" = s.spectra "helGWh" :=
            update_Pi_frame s _ (by decide) (by decide) (by decide) (by decide)
          have hX1 : (update_EGW_half (getArr (update_Pi s).spectra "k") "GWs" "GWh" "GWm" "EGW" "OmGW" "EGW_tot" "OmGW_tot" (update_Pi s)).spectra "helGWh" = (update_Pi s).spectra "helGWh" :=
            update_EGW_half_frame _ _ _ _ _ _ _ _ _ _ (by decide) (by decide) (by decide)
              (by decide) (by decide) (by decide) (by decide) (by decide)
          have h2 : (characterize_run sq s).spectra "helGWh" = s.spectra "helGWh" :=
            pipe_spectra_preserved sq s "helGWh" (by decide) (by decide) (by decide) (by decide) (by decide) (by decide) (by decide) (by decide) (by decide) (by decide) (by decide) (by decide) (by decide) (by decide) (by decide) (by decide) (by decide) (by decide) (by decide) (by decide)
              (fun m hm w hw =>
                ((hok m hm w hw).1 "helGWh" (List.mem_append.2 (Or.inl hgw))).1)
          rw [getMat_congr (hX1.trans h1), getMat_congr h2]
        · rw [if_neg (fun hc => hgw ((update_Pi_avail_iff s "helGWh" (by decide)
              (by decide)).1 ((update_EGW_half_avail_iff (getArr (update_Pi s).spectra "k") "GWs" "GWh" "GWm" "EGW"
              "OmGW" "EGW_tot" "OmGW_tot" (update_Pi s) "helGWh" (by decide) (by decide)
              (by decide) (by decide)).1 hc))),
            if_neg (fun hc => hgw ((pipe_avail_iff sq s "helGWh" (by decide)).1 hc))]
      have ho3 : (if "helGWm" ∈ (update_EGW_half (getArr (update_Pi s).spectra "k") "GWs" "GWh" "GWm" "EGW" "OmGW" "EGW_tot" "OmGW_tot" (update_Pi s)).spectra_avail
            then some (getMat (update_EGW_half (getArr (update_Pi s).spectra "k") "GWs" "GWh" "GWm" "EGW" "OmGW" "EGW_tot" "OmGW_tot" (update_Pi s)).spectra "helGWm") else none)
          = (if "helGWm" ∈ (characterize_run sq s).spectra_avail
            then some (getMat (characterize_run sq s).spectra "helGWm") else none) := by
        by_cases hgw : "helGWm" ∈ s.spectra_avail
        · rw [if_pos ((update_EGW_half_avail_iff (getArr (update_Pi s).spectra "k") "GWs" "GWh" "GWm" "EGW" "OmGW"
              "EGW_tot" "OmGW_tot" (update_Pi s) "helGWm" (by decide) (by decide) (by decide)
              (by decide)).2 (update_Pi_avail_mono s "helGWm" hgw)),
            if_pos ((pipe_avail_iff sq s "helGWm" (by decide)).2 hgw)]
          have h1 : (update_Pi s).spectra "helGWm" = s.spectra "helGWm" :=
            update_Pi_frame s _ (by decide) (by decide) (by decide) (by decide)
          have hX1 : (update_EGW_half (getArr (update_Pi s).spectra "k") "GWs" "GWh" "GWm" "EGW" "OmGW" "EGW_tot" "OmGW_tot" (update_Pi s)).spectra "helGWm" = (update_Pi s).spectra "helGWm" :=
            update_EGW_half_frame _ _ _ _ _ _ _ _ _ _ (by decide) (by decide) (by decide)
              (by decide) (by decide) (by decide) (by decide) (by decide)
          have h2 : (characterize_run sq s).spectra "helGWm" = s.spectra "helGWm" :=
            pipe_spectra_preserved sq s "helGWm" (by decide) (by decide) (by decide) (by decide) (by decide) (by decide) (by decide) (by decide) (by decide) (by decide) (by decide) (by decide) (by decide) (by decide) (by decide) (by decide) (by decide) (by decide) (by decide) (by decide)
              (fun m hm w hw =>
                ((hok m hm w hw).1 "helGWm" (List.mem_append.2 (Or.inl hgw))).1)
          rw [getMat_congr (hX1.trans h1), getMat_congr h2]
        · rw [if_neg (fun hc => hgw ((update_Pi_avail_iff s "helGWm" (by decide)
              (by decide)).1 ((update_EGW_half_avail_iff (getArr (update_Pi s).spectra "k") "GWs" "GWh" "GWm" "EGW"
              "OmGW" "EGW_tot" "OmGW_tot" (update_Pi s) "helGWm" (by decide) (by decide)
              (by decide) (by decide)).1 hc))),
            if_neg (fun hc => hgw ((pipe_avail_iff sq s "helGWm" (by decide)).1 hc))]
      have hH1 : (characterize_run sq s).spectra ("helEGW")
          = (update_EGW_half (getArr (update_Pi s).spectra "k") "helGWs" "helGWh" "helGWm" "helEGW" "helOmGW"
              "helEGW_tot" "helOmGW_tot" (update_EGW_half (getArr (update_Pi s).spectra "k") "GWs" "GWh" "GWm" "EGW" "OmGW" "EGW_tot" "OmGW_tot" (update_Pi s))).spectra ("helEGW") := by
        rw [pipe_spectra_eq, (mean_preserve_mem _ _ hok hsub "helEGW" hL4).1]
        rfl
      have hH2 : (characterize_run sq s).spectra ("helOmGW")
          = (update_EGW_half (getArr (update_Pi s).spectra "k") "helGWs" "helGWh" "helGWm" "helEGW" "helOmGW"
              "helEGW_tot" "helOmGW_tot" (update_EGW_half (getArr (update_Pi s).spectra "k") "GWs" "GWh" "GWm" "EGW" "OmGW" "EGW_tot" "OmGW_tot" (update_Pi s))).spectra ("helOmGW") := by
        rw [pipe_spectra_eq, (mean_preserve_mem _ _ hok hsub "helOmGW" hL5).1]
        rfl
      have hH3 : (characterize_run sq s).spectra ("t_" ++ "helEGW")
          = (update_EGW_half (getArr (update_Pi s).spectra "k") "helGWs" "helGWh" "helGWm" "helEGW" "helOmGW"
              "helEGW_tot" "helOmGW_tot" (update_EGW_half (getArr (update_Pi s).spectra "k") "GWs" "GWh" "GWm" "EGW" "OmGW" "EGW_tot" "OmGW_tot" (update_Pi s))).spectra ("t_" ++ "helEGW") := by
        rw [pipe_spectra_eq, (mean_preserve_mem _ _ hok hsub "helEGW" hL4).2]
        rfl
      have hH4 : (characterize_run sq s).spectra ("t_" ++ "helOmGW")
          = (update_EGW_half (getArr (update_Pi s).spectra "k") "helGWs" "helGWh" "helGWm" "helEGW" "helOmGW"
              "helEGW_tot" "helOmGW_tot" (update_EGW_half (getArr (update_Pi s).spectra "k") "GWs" "GWh" "GWm" "EGW" "OmGW" "EGW_tot" "OmGW_tot" (update_Pi s))).spectra ("t_" ++ "helOmGW") := by
        rw [pipe_spectra_eq, (mean_preserve_mem _ _ hok hsub "helOmGW" hL5).2]
        rfl
      have hH5 : (characterize_run sq s).spectra ("helEGW_tot")
          = (update_EGW_half (getArr (update_Pi s).spectra "k") "helGWs" "helGWh" "helGWm" "helEGW" "helOmGW"
              "helEGW_tot" "helOmGW_tot" (update_EGW_half (getArr (update_Pi s).spectra "k") "GWs" "GWh" "GWm" "EGW" "OmGW" "EGW_tot" "OmGW_tot" (update_Pi s))).spectra ("helEGW_tot") := by
        rw [pipe_spectra_eq, (mean_preserve_mem _ _ hok hsub "helEGW_tot" hL6).1]
        rfl
      have hH6 : (characterize_run sq s).spectra ("helOmGW_tot")
          = (update_EGW_half (getArr (update_Pi s).spectra "k") "helGWs" "helGWh" "helGWm" "helEGW" "helOmGW"
              "helEGW_tot" "helOmGW_tot" (update_EGW_half (getArr (update_Pi s).spectra "k") "GWs" "GWh" "GWm" "EGW" "OmGW" "EGW_tot" "OmGW_tot" (update_Pi s))).spectra ("helOmGW_tot") := by
        rw [pipe_spectra_eq, (mean_preserve_mem _ _ hok hsub "helOmGW_tot" hL7).1]
        rfl
      have hH7 : (characterize_run sq s).spectra ("t_" ++ "helEGW_tot")
          = (update_EGW_half (getArr (update_Pi s).spectra "k") "helGWs" "helGWh" "helGWm" "helEGW" "helOmGW"
              "helEGW_tot" "helOmGW_tot" (update_EGW_half (getArr (update_Pi s).spectra "k") "GWs" "GWh" "GWm" "EGW" "OmGW" "EGW_tot" "OmGW_tot" (update_Pi s))).spectra ("t_" ++ "helEGW_tot") := by
        rw [pipe_spectra_eq, (mean_preserve_mem _ _ hok hsub "helEGW_tot" hL6).2]
        rfl
      have hH8 : (characterize_run sq s).spectra ("t_" ++ "helOmGW_tot")
          = (update_EGW_half (getArr (update_Pi s).spectra "k") "helGWs" "helGWh" "helGWm" "helEGW" "helOmGW"
              "helEGW_tot" "helOmGW_tot" (update_EGW_half (getArr (update_Pi s).spectra "k") "GWs" "GWh" "GWm" "EGW" "OmGW" "EGW_tot" "OmGW_tot" (update_Pi s))).spectra ("t_" ++ "helOmGW_tot") := by
        rw [pipe_spectra_eq, (mean_preserve_mem _ _ hok hsub "helOmGW_tot" hL7).2]
        rfl
      refine update_EGW_half_noop _ _ _ _ _ _ _ _ _ (by decide) (by decide) (by decide)
        (by decide) hg ?_ ?_ ?_ ?_ ?_ ?_ ?_
      · rw [hH1, hchar.1, htt, hss, ho2, ho3, hkk]
      · rw [hH2, hchar.2.1, htt, hss, hkk]
      · rw [hH3, hchar.2.2.1, htt]
      · rw [hH4, hchar.2.2.2.1, htt]
      · rw [pipe_avail_eq]
        show "helEGW" ∈ (update_EGW_half (getArr (update_Pi s).spectra "k") "helGWs" "helGWh" "helGWm" "helEGW"
            "helOmGW" "helEGW_tot" "helOmGW_tot" (update_EGW_half (getArr (update_Pi s).spectra "k") "GWs" "GWh" "GWm" "EGW" "OmGW" "EGW_tot" "OmGW_tot" (update_Pi s))).spectra_avail
        exact (update_EGW_half_has (getArr (update_Pi s).spectra "k") "helGWs" "helGWh" "helGWm" "helEGW" "helOmGW"
          "helEGW_tot" "helOmGW_tot" (update_EGW_half (getArr (update_Pi s).spectra "k") "GWs" "GWh" "GWm" "EGW" "OmGW" "EGW_tot" "OmGW_tot" (update_Pi s)) hg_X).1
      · rw [pipe_avail_eq]
        show "helOmGW" ∈ (update_EGW_half (getArr (update_Pi s).spectra "k") "helGWs" "helGWh" "helGWm" "helEGW"
            "helOmGW" "helEGW_tot" "helOmGW_tot" (update_EGW_half (getArr (update_Pi s).spectra "k") "GWs" "GWh" "GWm" "EGW" "OmGW" "EGW_tot" "OmGW_tot" (update_Pi s))).spectra_avail
        exact (update_EGW_half_has (getArr (update_Pi s).spectra "k") "helGWs" "helGWh" "helGWm" "helEGW" "helOmGW"
          "helEGW_tot" "helOmGW_tot" (update_EGW_half (getArr (update_Pi s).spectra "k") "GWs" "GWh" "GWm" "EGW" "OmGW" "EGW_tot" "OmGW_tot" (update_Pi s)) hg_X).2
      · intro hc
        have hcX : "helGWh" ∈ (update_EGW_half (getArr (update_Pi s).spectra "k") "GWs" "GWh" "GWm" "EGW" "OmGW" "EGW_tot" "OmGW_tot" (update_Pi s)).spectra_avail ∨ "helGWm" ∈ (update_EGW_half (getArr (update_Pi s).spectra "k") "GWs" "GWh" "GWm" "EGW" "OmGW" "EGW_tot" "OmGW_tot" (update_Pi s)).spectra_avail := by
          rcases hc with hc | hc
          · exact Or.inl ((update_EGW_half_avail_iff (getArr (update_Pi s).spectra "k") "GWs" "GWh" "GWm" "EGW" "OmGW"
              "EGW_tot" "OmGW_tot" (update_Pi s) "helGWh" (by decide) (by decide) (by decide)
              (by decide)).2 (update_Pi_avail_mono s "helGWh"
                ((pipe_avail_iff sq s "helGWh" (by decide)).1 hc)))
          · exact Or.inr ((update_EGW_half_avail_iff (getArr (update_Pi s).spectra "k") "GWs" "GWh" "GWm" "EGW" "OmGW"
              "EGW_tot" "OmGW_tot" (update_Pi s) "helGWm" (by decide) (by decide) (by decide)
              (by decide)).2 (update_Pi_avail_mono s "helGWm"
                ((pipe_avail_iff sq s "helGWm" (by decide)).1 hc)))
        have hct := hchar.2.2.2.2 hcX
        have hmem := update_EGW_half_has_tot (getArr (update_Pi s).spectra "k") "helGWs" "helGWh" "helGWm" "helEGW"
          "helOmGW" "helEGW_tot" "helOmGW_tot" (update_EGW_half (getArr (update_Pi s).spectra "k") "GWs" "GWh" "GWm" "EGW" "OmGW" "EGW_tot" "OmGW_tot" (update_Pi s)) hg_X hcX
        refine ⟨?_, ?_, ?_, ?_, ?_, ?_⟩
        · rw [hH5, hct.1, htt, hss, ho2, ho3, hkk]
        · rw [hH6, hct.2.1, htt, hss, ho2, ho3, hkk]
        · rw [hH7, hct.2.2.1, htt]
        · rw [hH8, hct.2.2.2, htt]
        · rw [pipe_avail_eq]
          show "helEGW_tot" ∈ (update_EGW_half (getArr (update_Pi s).spectra "k") "helGWs" "helGWh" "helGWm" "helEGW"
              "helOmGW" "helEGW_tot" "helOmGW_tot" (update_EGW_half (getArr (update_Pi s).spectra "k") "GWs" "GWh" "GWm" "EGW" "OmGW" "EGW_tot" "OmGW_tot" (update_Pi s))).spectra_avail
          exact hmem.1
        · rw [pipe_avail_eq]
          show "helOmGW_tot" ∈ (update_EGW_half (getArr (update_Pi s).spectra "k") "helGWs" "helGWh" "helGWm" "helEGW"
              "helOmGW" "helEGW_tot" "helOmGW_tot" (update_EGW_half (getArr (update_Pi s).spectra "k") "GWs" "GWh" "GWm" "EGW" "OmGW" "EGW_tot" "OmGW_tot" (update_Pi s))).spectra_avail
          exact hmem.2
    · exact update_EGW_half_not _ _ _ _ _ _ _ _ _ hg
  show update_EGW_half (getArr (characterize_run sq s).spectra "k") "helGWs" "helGWh" "helGWm" "helEGW" "helOmGW" "helEGW_tot"
      "helOmGW_tot" (update_EGW_half (getArr (characterize_run sq s).spectra "k") "GWs" "GWh" "GWm" "EGW" "OmGW" "EGW_tot"
        "OmGW_tot" (characterize_run sq s)) = characterize_run sq s
  rw [h1half, h2half]

/-- The reduction stage `compute_mean_max_spectra` is the identity on the
result of `characterize_run`. -/
theorem pipe_mean_fixed (sq : ℚ → ℚ) (s : RunState) (h : PipeNamesOK s.spectra_avail) :
    compute_mean_max_spectra (characterize_run sq s) = characterize_run sq s := by
  obtain ⟨hok, hk⟩ := h
  have hsub := derive_avail_sub_names s
  have hok2 : MeanOK (update_EGW (update_Pi s)).spectra_avail := MeanOK_sublist hsub hok
  have hKk : (characterize_run sq s).spectra "k" = s.spectra "k" :=
    pipe_spectra_preserved sq s "k" (by decide) (by decide) (by decide) (by decide) (by decide) (by decide) (by decide) (by decide) (by decide) (by decide) (by decide) (by decide) (by decide) (by decide) (by decide) (by decide) (by decide) (by decide) (by decide) (by decide) hk
  have ha2k : (update_EGW (update_Pi s)).spectra "k" = s.spectra "k" := by
    rw [update_EGW_frame_all _ "k" (by decide),
      update_Pi_frame s _ (by decide) (by decide) (by decide) (by decide)]
  have hk2 : (getArr (update_EGW (update_Pi s)).spectra "k").tail
      = (getArr (characterize_run sq s).spectra "k").tail := by
    rw [getArr_congr ha2k, getArr_congr hKk]
  have hstep : ∀ m ∈ (characterize_run sq s).spectra_avail,
      meanStep ((getArr (characterize_run sq s).spectra "k").tail)
        (characterize_run sq s).spectra m = (characterize_run sq s).spectra := by
    intro m hm
    have hm2 : m ∈ (update_EGW (update_Pi s)).spectra_avail := by
      rw [← pipe_avail_eq sq s]
      exact hm
    have hmL : m ∈ s.spectra_avail ++ derivedNames := hsub m hm2
    have hchar := meanFold_char ((getArr (update_EGW (update_Pi s)).spectra "k").tail)
      (update_EGW (update_Pi s)).spectra_avail hok2 (update_EGW (update_Pi s)).spectra m hm2
    have hpm := mean_preserve_mem (update_EGW (update_Pi s)) _ hok hsub m hmL
    have hS1 : (characterize_run sq s).spectra m
        = (update_EGW (update_Pi s)).spectra m := by
      rw [pipe_spectra_eq, hpm.1]
    have hS2 : (characterize_run sq s).spectra ("t_" ++ m)
        = (update_EGW (update_Pi s)).spectra ("t_" ++ m) := by
      rw [pipe_spectra_eq, hpm.2]
    refine meanStep_noop _ _ _ ?_ ?_ ?_
    · have h1 : (characterize_run sq s).spectra (m ++ "_kpeak")
          = (update_EGW (update_Pi s)).spectra_avail.foldl
              (meanStep ((getArr (update_EGW (update_Pi s)).spectra "k").tail))
              (update_EGW (update_Pi s)).spectra (m ++ "_kpeak") := by
        rw [pipe_spectra_eq]
        rfl
      rw [h1, hchar.1, hk2, ← getArr_congr hS2, ← getMat_congr hS1]
    · have h1 : (characterize_run sq s).spectra (m ++ "_max")
          = (update_EGW (update_Pi s)).spectra_avail.foldl
              (meanStep ((getArr (update_EGW (update_Pi s)).spectra "k").tail))
              (update_EGW (update_Pi s)).spectra (m ++ "_max") := by
        rw [pipe_spectra_eq]
        rfl
      rw [h1, hchar.2.1, hk2, ← getArr_congr hS2, ← getMat_congr hS1]
    · have h1 : (characterize_run sq s).spectra (m ++ "_mean")
          = (update_EGW (update_Pi s)).spectra_avail.foldl
              (meanStep ((getArr (update_EGW (update_Pi s)).spectra "k").tail))
              (update_EGW (update_Pi s)).spectra (m ++ "_mean") := by
        rw [pipe_spectra_eq]
        rfl
      rw [h1, hchar.2.2, hk2, ← getArr_congr hS2, ← getMat_congr hS1]
  have hfold := meanFold_noop ((getArr (characterize_run sq s).spectra "k").tail)
    (characterize_run sq s).spectra_avail (characterize_run sq s).spectra hstep
  simp only [compute_mean_max_spectra]
  rw [hfold]

/-- C5: invoking the full derive→reduce→classify sequence `characterize_run`
twice on the same ingested run yields, after the second invocation, spectra
and ts mapping contents (the value at every key, hence the key set) identical
to those after the first invocation, and identical classifier scalar fields.
The hypothesis `PipeNamesOK` states that the ingested spectrum names do not
collide with the keys the pipeline writes (true of every real run). -/
theorem characterize_run_idempotent (sq : ℚ → ℚ) (s : RunState)
    (h : PipeNamesOK s.spectra_avail) :
    (characterize_run sq (characterize_run sq s)).spectra
        = (characterize_run sq s).spectra ∧
    (characterize_run sq (characterize_run sq s)).spectra_avail
        = (characterize_run sq s).spectra_avail ∧
    (characterize_run sq (characterize_run sq s)).ts = (characterize_run sq s).ts ∧
    (characterize_run sq (characterize_run sq s)).scal = (characterize_run sq s).scal := by
  have hA := pipe_pi_fixed sq s h
  have hB := pipe_egw_fixed sq s h
  have hC := pipe_mean_fixed sq s h
  have hta3 : (compute_mean_max_spectra (update_EGW (update_Pi s))).ts_avail = s.ts_avail := by
    show (update_EGW (update_Pi s)).ts_avail = s.ts_avail
    rw [update_EGW_ts_avail, update_Pi_ts_avail]
  have hts3 : (compute_mean_max_spectra (update_EGW (update_Pi s))).ts = s.ts := by
    show (update_EGW (update_Pi s)).ts = s.ts
    rw [update_EGW_ts, update_Pi_ts]
  have hta : ({ compute_mean_max_spectra (update_EGW (update_Pi s)) with
      scal := pipeScal sq (compute_mean_max_spectra (update_EGW (update_Pi s))) } : RunState).ts_avail = s.ts_avail := hta3
  have htsd : ({ compute_mean_max_spectra (update_EGW (update_Pi s)) with
      scal := pipeScal sq (compute_mean_max_spectra (update_EGW (update_Pi s))) } : RunState).ts = s.ts := hts3
  have hdts := congrArg RunState.ts (characterize_decomp2 sq s)
  have hts_key : ∀ key : String, key ≠ "rho" → key ≠ "EEtot" → key ≠ "EEKmax" →
      key ≠ "EEMmax" → key ≠ "EEtotmax" → (characterize_run sq s).ts key = s.ts key := by
    intro key h1 h2 h3 h4 h5
    rw [characterize_decomp2 sq s, compute_total_ts_frame _ _ h2 h3 h4 h5,
      compute_rho_ts_frame _ _ h1, htsd]
  have hts_mem : ∀ x : String, x ≠ "rho" → x ≠ "EEtot" → x ≠ "EEKmax" →
      x ≠ "EEMmax" → x ≠ "EEtotmax" → ((x ∈ (characterize_run sq s).ts_avail) ↔ (x ∈ s.ts_avail)) := by
    intro x h1 h2 h3 h4 h5
    constructor
    · intro hx
      rw [characterize_decomp2 sq s] at hx
      rcases compute_total_ts_avail_sub _ _ hx with hx | hx | hx | hx | hx
      · rcases compute_rho_ts_avail_sub _ _ hx with hx | hx
        · rw [hta] at hx
          exact hx
        · exact absurd hx h1
      · exact absurd hx h2
      · exact absurd hx h3
      · exact absurd hx h4
      · exact absurd hx h5
    · intro hx
      rw [characterize_decomp2 sq s]
      refine compute_total_ts_avail_mono _ _ (compute_rho_ts_avail_mono _ _ ?_)
      rw [hta]
      exact hx
  have hrho_fact : "urms" ∈ (characterize_run sq s).ts_avail ∧ "EEK" ∈ (characterize_run sq s).ts_avail →
      (characterize_run sq s).ts "rho"
        = some (.arr (rhoCalcV (getArr (characterize_run sq s).ts "urms") (getArr (characterize_run sq s).ts "EEK"))) := by
    rintro ⟨hu, hke⟩
    have hu_s : "urms" ∈ s.ts_avail := (hts_mem "urms" (by decide) (by decide) (by decide) (by decide) (by decide)).1 hu
    have hke_s : "EEK" ∈ s.ts_avail := (hts_mem "EEK" (by decide) (by decide) (by decide) (by decide) (by decide)).1 hke
    have hcond : "urms" ∈ ({ compute_mean_max_spectra (update_EGW (update_Pi s)) with
      scal := pipeScal sq (compute_mean_max_spectra (update_EGW (update_Pi s))) } : RunState).ts_avail ∧
        "EEK" ∈ ({ compute_mean_max_spectra (update_EGW (update_Pi s)) with
      scal := pipeScal sq (compute_mean_max_spectra (update_EGW (update_Pi s))) } : RunState).ts_avail := by
      rw [hta]
      exact ⟨hu_s, hke_s⟩
    have hchar := compute_rho_char _ hcond
    rw [getArr_congr (hts_key "urms" (by decide) (by decide) (by decide) (by decide) (by decide)),
      getArr_congr (hts_key "EEK" (by decide) (by decide) (by decide) (by decide) (by decide)),
      characterize_decomp2 sq s, compute_total_ts_frame _ _ (by decide) (by decide)
        (by decide) (by decide), hchar, htsd]
  have hrho_noop : (compute_rho (characterize_run sq s)).ts = (characterize_run sq s).ts :=
    compute_rho_ts_noop _ hrho_fact
  have h_EE : "EEM" ∈ (compute_rho (characterize_run sq s)).ts_avail ∧
      "EEK" ∈ (compute_rho (characterize_run sq s)).ts_avail →
      (compute_rho (characterize_run sq s)).ts "EEtot"
        = some (.arr (List.zipWith (fun a b => a + b)
            (getArr (compute_rho (characterize_run sq s)).ts "EEK")
            (getArr (compute_rho (characterize_run sq s)).ts "EEM"))) := by
    rintro ⟨h1x, h2x⟩
    have h1S : "EEM" ∈ (characterize_run sq s).ts_avail := by
      rcases compute_rho_ts_avail_sub _ _ h1x with hx | hx
      · exact hx
      · exact absurd hx (by decide)
    have h2S : "EEK" ∈ (characterize_run sq s).ts_avail := by
      rcases compute_rho_ts_avail_sub _ _ h2x with hx | hx
      · exact hx
      · exact absurd hx (by decide)
    have h1s : "EEM" ∈ s.ts_avail := (hts_mem "EEM" (by decide) (by decide) (by decide) (by decide) (by decide)).1 h1S
    have h2s : "EEK" ∈ s.ts_avail := (hts_mem "EEK" (by decide) (by decide) (by decide) (by decide) (by decide)).1 h2S
    have h1ra : "EEM" ∈ (compute_rho { compute_mean_max_spectra (update_EGW (update_Pi s)) with
      scal := pipeScal sq (compute_mean_max_spectra (update_EGW (update_Pi s))) }).ts_avail := by
      refine compute_rho_ts_avail_mono _ _ ?_
      rw [hta]
      exact h1s
    have h2ra : "EEK" ∈ (compute_rho { compute_mean_max_spectra (update_EGW (update_Pi s)) with
      scal := pipeScal sq (compute_mean_max_spectra (update_EGW (update_Pi s))) }).ts_avail := by
      refine compute_rho_ts_avail_mono _ _ ?_
      rw [hta]
      exact h2s
    have hchar := compute_total_char_EEtot (compute_rho { compute_mean_max_spectra (update_EGW (update_Pi s)) with
      scal := pipeScal sq (compute_mean_max_spectra (update_EGW (update_Pi s))) }) ⟨h1ra, h2ra⟩
    have hraK : (compute_rho { compute_mean_max_spectra (update_EGW (update_Pi s)) with
      scal := pipeScal sq (compute_mean_max_spectra (update_EGW (update_Pi s))) }).ts "EEK" = s.ts "EEK" := by
      rw [compute_rho_ts_frame _ _ (by decide), htsd]
    have hraM : (compute_rho { compute_mean_max_spectra (update_EGW (update_Pi s)) with
      scal := pipeScal sq (compute_mean_max_spectra (update_EGW (update_Pi s))) }).ts "EEM" = s.ts "EEM" := by
      rw [compute_rho_ts_frame _ _ (by decide), htsd]
    rw [hrho_noop, getArr_congr (hts_key "EEK" (by decide) (by decide) (by decide) (by decide) (by decide)),
      getArr_congr (hts_key "EEM" (by decide) (by decide) (by decide) (by decide) (by decide)), hdts, hchar,
      getArr_congr hraK, getArr_congr hraM]
  have h_u : "umax" ∈ (compute_rho (characterize_run sq s)).ts_avail →
      (compute_rho (characterize_run sq s)).ts "EEKmax"
        = some (.arr ((getArr (compute_rho (characterize_run sq s)).ts "umax").map
            (fun x => x ^ 2 / 2))) := by
    intro hx
    have hxS : "umax" ∈ (characterize_run sq s).ts_avail := by
      rcases compute_rho_ts_avail_sub _ _ hx with hx2 | hx2
      · exact hx2
      · exact absurd hx2 (by decide)
    have hx_s : "umax" ∈ s.ts_avail := (hts_mem "umax" (by decide) (by decide) (by decide) (by decide) (by decide)).1 hxS
    have hxra : "umax" ∈ (compute_rho { compute_mean_max_spectra (update_EGW (update_Pi s)) with
      scal := pipeScal sq (compute_mean_max_spectra (update_EGW (update_Pi s))) }).ts_avail := by
      refine compute_rho_ts_avail_mono _ _ ?_
      rw [hta]
      exact hx_s
    have hchar := compute_total_char_EEKmax (compute_rho { compute_mean_max_spectra (update_EGW (update_Pi s)) with
      scal := pipeScal sq (compute_mean_max_spectra (update_EGW (update_Pi s))) }) hxra
    have hra : (compute_rho { compute_mean_max_spectra (update_EGW (update_Pi s)) with
      scal := pipeScal sq (compute_mean_max_spectra (update_EGW (update_Pi s))) }).ts "umax" = s.ts "umax" := by
      rw [compute_rho_ts_frame _ _ (by decide), htsd]
    rw [hrho_noop, getArr_congr (hts_key "umax" (by decide) (by decide) (by decide) (by decide) (by decide)), hdts, hchar,
      getArr_congr hra]
  have h_b : "bmax" ∈ (compute_rho (characterize_run sq s)).ts_avail →
      (compute_rho (characterize_run sq s)).ts "EEMmax"
        = some (.arr ((getArr (compute_rho (characterize_run sq s)).ts "bmax").map
            (fun x => x ^ 2 / 2))) := by
    intro hx
    have hxS : "bmax" ∈ (characterize_run sq s).ts_avail := by
      rcases compute_rho_ts_avail_sub _ _ hx with hx2 | hx2
      · exact hx2
      · exact absurd hx2 (by decide)
    have hx_s : "bmax" ∈ s.ts_avail := (hts_mem "bmax" (by decide) (by decide) (by decide) (by decide) (by decide)).1 hxS
    have hxra : "bmax" ∈ (compute_rho { compute_mean_max_spectra (update_EGW (update_Pi s)) with
      scal := pipeScal sq (compute_mean_max_spectra (update_EGW (update_Pi s))) }).ts_avail := by
      refine compute_rho_ts_avail_mono _ _ ?_
      rw [hta]
      exact hx_s
    have hchar := compute_total_char_EEMmax (compute_rho { compute_mean_max_spectra (update_EGW (update_Pi s)) with
      scal := pipeScal sq (compute_mean_max_spectra (update_EGW (update_Pi s))) }) hxra
    have hra : (compute_rho { compute_mean_max_spectra (update_EGW (update_Pi s)) with
      scal := pipeScal sq (compute_mean_max_spectra (update_EGW (update_Pi s))) }).ts "bmax" = s.ts "bmax" := by
      rw [compute_rho_ts_frame _ _ (by decide), htsd]
    rw [hrho_noop, getArr_congr (hts_key "bmax" (by decide) (by decide) (by decide) (by decide) (by decide)), hdts, hchar,
      getArr_congr hra]
  have h_bu : "bmax" ∈ (compute_rho (characterize_run sq s)).ts_avail →
      "umax" ∈ (compute_rho (characterize_run sq s)).ts_avail →
      (compute_rho (characterize_run sq s)).ts "EEtotmax"
        = some (.arr (List.zipWith (fun a b => a + b)
            ((getArr (compute_rho (characterize_run sq s)).ts "bmax").map (fun x => x ^ 2 / 2))
            ((getArr (compute_rho (characterize_run sq s)).ts "umax").map (fun x => x ^ 2 / 2)))) := by
    intro hb hu2
    have hbS : "bmax" ∈ (characterize_run sq s).ts_avail := by
      rcases compute_rho_ts_avail_sub _ _ hb with hx2 | hx2
      · exact hx2
      · exact absurd hx2 (by decide)
    have huS : "umax" ∈ (characterize_run sq s).ts_avail := by
      rcases compute_rho_ts_avail_sub _ _ hu2 with hx2 | hx2
      · exact hx2
      · exact absurd hx2 (by decide)
    have hb_s : "bmax" ∈ s.ts_avail := (hts_mem "bmax" (by decide) (by decide) (by decide) (by decide) (by decide)).1 hbS
    have hu_s : "umax" ∈ s.ts_avail := (hts_mem "umax" (by decide) (by decide) (by decide) (by decide) (by decide)).1 huS
    have hbra : "bmax" ∈ (compute_rho { compute_mean_max_spectra (update_EGW (update_Pi s)) with
      scal := pipeScal sq (compute_mean_max_spectra (update_EGW (update_Pi s))) }).ts_avail := by
      refine compute_rho_ts_avail_mono _ _ ?_
      rw [hta]
      exact hb_s
    have hura : "umax" ∈ (compute_rho { compute_mean_max_spectra (update_EGW (update_Pi s)) with
      scal := pipeScal sq (compute_mean_max_spectra (update_EGW (update_Pi s))) }).ts_avail := by
      refine compute_rho_ts_avail_mono _ _ ?_
      rw [hta]
      exact hu_s
    have hchar := compute_total_char_EEtotmax (compute_rho { compute_mean_max_spectra (update_EGW (update_Pi s)) with
      scal := pipeScal sq (compute_mean_max_spectra (update_EGW (update_Pi s))) }) hbra hura
    have hrab : (compute_rho { compute_mean_max_spectra (update_EGW (update_Pi s)) with
      scal := pipeScal sq (compute_mean_max_spectra (update_EGW (update_Pi s))) }).ts "bmax" = s.ts "bmax" := by
      rw [compute_rho_ts_frame _ _ (by decide), htsd]
    have hrau : (compute_rho { compute_mean_max_spectra (update_EGW (update_Pi s)) with
      scal := pipeScal sq (compute_mean_max_spectra (update_EGW (update_Pi s))) }).ts "umax" = s.ts "umax" := by
      rw [compute_rho_ts_frame _ _ (by decide), htsd]
    rw [hrho_noop, getArr_congr (hts_key "bmax" (by decide) (by decide) (by decide) (by decide) (by decide)),
      getArr_congr (hts_key "umax" (by decide) (by decide) (by decide) (by decide) (by decide)), hdts, hchar,
      getArr_congr hrab, getArr_congr hrau]
  have htot_noop := compute_total_ts_noop (compute_rho (characterize_run sq s)) h_EE h_u h_b h_bu
  have hMc : check_max_spectra_ts (characterize_run sq s) "mag" "EEM"
      = check_max_spectra_ts (compute_mean_max_spectra (update_EGW (update_Pi s))) "mag" "EEM" := by
    refine check_max_congr _ _ _ _ (pipe_spectra_eq sq s) ?_ ?_ ?_ ?_
    · exact (pipe_avail_eq sq s).trans rfl
    · exact (hts_key "t" (by decide) (by decide) (by decide) (by decide) (by decide)).trans (congrFun hts3 "t").symm
    · exact (hts_key "EEM" (by decide) (by decide) (by decide) (by decide) (by decide)).trans (congrFun hts3 "EEM").symm
    · apply propext
      rw [hta3]
      exact hts_mem "EEM" (by decide) (by decide) (by decide) (by decide) (by decide)
  have hKc : check_max_spectra_ts (characterize_run sq s) "kin" "EEK"
      = check_max_spectra_ts (compute_mean_max_spectra (update_EGW (update_Pi s))) "kin" "EEK" := by
    refine check_max_congr _ _ _ _ (pipe_spectra_eq sq s) ?_ ?_ ?_ ?_
    · exact (pipe_avail_eq sq s).trans rfl
    · exact (hts_key "t" (by decide) (by decide) (by decide) (by decide) (by decide)).trans (congrFun hts3 "t").symm
    · exact (hts_key "EEK" (by decide) (by decide) (by decide) (by decide) (by decide)).trans (congrFun hts3 "EEK").symm
    · apply propext
      rw [hta3]
      exact hts_mem "EEK" (by decide) (by decide) (by decide) (by decide) (by decide)
  have hscal2 : pipeScal sq (characterize_run sq s) = pipeScal sq (compute_mean_max_spectra (update_EGW (update_Pi s))) :=
    pipeScal_congr sq _ _ hMc hKc
  have hscal1 : (characterize_run sq s).scal = pipeScal sq (compute_mean_max_spectra (update_EGW (update_Pi s))) := by
    have h1 := congrArg RunState.scal (characterize_decomp2 sq s)
    rw [(compute_total_shape _).2.2, (compute_rho_shape _).2.2] at h1
    exact h1
  have hrec : ({ characterize_run sq s with
      scal := pipeScal sq (characterize_run sq s) } : RunState)
      = characterize_run sq s := by
    have h2 : pipeScal sq (characterize_run sq s) = (characterize_run sq s).scal :=
      hscal2.trans hscal1.symm
    rw [h2]
  have hdec2 := characterize_decomp2 sq (characterize_run sq s)
  rw [hA, hB, hC, hrec] at hdec2
  refine ⟨?_, ?_, ?_, ?_⟩
  · rw [hdec2, (compute_total_shape _).1, (compute_rho_shape _).1]
  · rw [hdec2, (compute_total_shape _).2.1, (compute_rho_shape _).2.1]
  · rw [hdec2, htot_noop, hrho_noop]
  · rw [hdec2, (compute_total_shape _).2.2, (compute_rho_shape _).2.2]

/-- A small ingested run exercising every pipeline stage: one spectrum `mag`
and the time series `EEM`, `EEK`, `urms`, `umax`, `bmax`. -/
def runIdemEx : RunState :=
  { spectra := fun key =>
      if key = "k" then some (.arr [0, 1, 2])
      else if key = "mag" then some (.mat [[5, 1, 3]])
      else if key = "t_mag" then some (.arr [0])
      else none,
    spectra_avail := ["mag"],
    ts := fun key =>
      if key = "t" then some (.arr [0, 1])
      else if key = "EEM" then some (.arr [1, 2])
      else if key = "EEK" then some (.arr [3, 1])
      else if key = "urms" then some (.arr [1, 2])
      else if key = "umax" then some (.arr [2, 3])
      else if key = "bmax" then some (.arr [1, 1])
      else none,
    ts_avail := ["t", "EEM", "EEK", "urms", "umax", "bmax"],
    scal := scalZero }

/-- Witness for C5 at the concrete run `runIdemEx` (with `np.sqrt` instantiated
by the identity map). -/
theorem characterize_run_idempotent_witness :
    PipeNamesOK runIdemEx.spectra_avail ∧
    ((characterize_run id (characterize_run id runIdemEx)).spectra
        = (characterize_run id runIdemEx).spectra ∧
     (characterize_run id (characterize_run id runIdemEx)).spectra_avail
        = (characterize_run id runIdemEx).spectra_avail ∧
     (characterize_run id (characterize_run id runIdemEx)).ts
        = (characterize_run id runIdemEx).ts ∧
     (characterize_run id (characterize_run id runIdemEx)).scal
        = (characterize_run id runIdemEx).scal) :=
  ⟨by decide, characterize_run_idempotent id runIdemEx (by decide)⟩

end GWTurb
